import Mathlib

/-!
Verification development for the shohan smart-cache system.

The definitions below are a shallow embedding of the TypeScript sources:
`src/cache/memory.ts` (ProductionMemoryCache), `src/cache/traffic.ts`
(ProductionTrafficTracker), `src/cache/metrics.ts` (PerformanceMetrics),
`src/cache/redis.ts` (ResilientRedis) and `src/cache/index.ts`
(ProductionEZCache).  Time is passed explicitly (`now : Int`, a millisecond
timestamp, standing for `Date.now()`); every statement within one operation
is taken to run in the same millisecond tick.  The remote (Upstash) service
is outside the repository, so remote calls take their network outcome as an
explicit argument.  Logging is omitted (it has no effect on state), and the
response-time bookkeeping inside the metrics objects is omitted because all
modelled durations are zero in the single-tick time model.
-/

namespace Shohan

/-! ## JavaScript values

Cached payloads are opaque to the cache; the embedding models them by the
primitive JavaScript values, which is enough to express truthiness and the
serialized-size estimate used by the code. -/

inductive JVal where
  | jnull
  | jundef
  | jbool (b : Bool)
  | jnum (n : Int)
  | jstr (s : String)
  deriving DecidableEq, Repr

/-- JavaScript truthiness: `null`, `undefined`, `false`, `0` and the empty
string are falsy.  (NaN is not modelled.) -/
def JVal.truthy : JVal → Bool
  | .jnull => false
  | .jundef => false
  | .jbool b => b
  | .jnum n => n != 0
  | .jstr s => s != ""

/-- JSON.stringify restricted to primitive values; `undefined` serializes to
`undefined` (not a string), modelled as `none`.  String escaping is not
modelled; proofs only use escape-free strings. -/
def JVal.stringify : JVal → Option String
  | .jnull => some "null"
  | .jundef => none
  | .jbool true => some "true"
  | .jbool false => some "false"
  | .jnum n => some (toString n)
  | .jstr s => some ("\"" ++ s ++ "\"")

/-! ## Insertion-ordered string maps (JavaScript `Map`) -/

/-- Lookup in an insertion-ordered association list, as `Map.get`. -/
def mapGet {α : Type} (m : List (String × α)) (k : String) : Option α :=
  (m.find? (fun p => p.1 == k)).map Prod.snd

/-- `Map.set`: overwrite in place if the key exists (keeping its insertion
position), otherwise append. -/
def mapSet {α : Type} (m : List (String × α)) (k : String) (v : α) :
    List (String × α) :=
  if m.any (fun p => p.1 == k) then
    m.map (fun p => if p.1 == k then (k, v) else p)
  else
    m ++ [(k, v)]

/-- `Map.delete` (keys are unique, so filtering removes the one binding). -/
def mapDelete {α : Type} (m : List (String × α)) (k : String) :
    List (String × α) :=
  m.filter (fun p => p.1 != k)

/-- `Map.has`. -/
def mapHas {α : Type} (m : List (String × α)) (k : String) : Bool :=
  m.any (fun p => p.1 == k)

/-! ## Configuration (`src/cache/config.ts`)

`CACHE_CONFIG` is read once at module load; the embedding passes it as an
explicit immutable structure.  Only the fields the modelled operations read
are included. -/

structure Config where
  ENABLE_MEMORY : Bool
  ENABLE_REDIS : Bool
  ENABLE_TRAFFIC_DETECTION : Bool
  ENABLE_METRICS : Bool
  ENABLE_CIRCUIT_BREAKER : Bool
  MEMORY_SIZE : Nat
  MEMORY_TTL_MAX : Nat
  MAX_VALUE_SIZE : Nat
  TRAFFIC_THRESHOLD : Nat
  DEFAULT_TTL : Nat
  WINDOW_MS : Int
  TRACKER_CLEANUP_MS : Int
  CIRCUIT_FAILURE_THRESHOLD : Nat
  CIRCUIT_RESET_TIMEOUT : Int
  deriving DecidableEq, Repr

inductive CacheMode where
  | HYBRID
  | MEMORY_ONLY
  | REDIS_ONLY
  | DISABLED
  deriving DecidableEq, Repr

/-- `CACHE_MODE` as derived in config.ts from the two layer toggles. -/
def Config.cacheMode (c : Config) : CacheMode :=
  if c.ENABLE_REDIS && c.ENABLE_MEMORY then .HYBRID
  else if c.ENABLE_MEMORY && !c.ENABLE_REDIS then .MEMORY_ONLY
  else if !c.ENABLE_MEMORY && c.ENABLE_REDIS then .REDIS_ONLY
  else .DISABLED

/-! ## Memory cache (`src/cache/memory.ts`, class ProductionMemoryCache) -/

structure CacheItem where
  data : JVal
  expires : Int
  lastAccess : Int
  hitCount : Nat
  size : Nat
  createdAt : Int
  deriving DecidableEq, Repr

structure MemoryCache where
  cache : List (String × CacheItem)
  totalSize : Int
  lastCleanup : Int
  deriving DecidableEq, Repr

namespace MemoryCache

def empty (now : Int) : MemoryCache := ⟨[], 0, now⟩

/-- `size()`. -/
def size (m : MemoryCache) : Nat := m.cache.length

/-- `estimateSize`: `JSON.stringify(data).length * 2`, falling back to 1024
when stringification fails. -/
def estimateSize (data : JVal) : Nat :=
  match data.stringify with
  | some s => s.length * 2
  | none => 1024

/-- `delete(key)`: subtract the entry size from the running total and remove
the binding; returns whether a binding was present. -/
def delete (key : String) (m : MemoryCache) : Bool × MemoryCache :=
  match mapGet m.cache key with
  | some item =>
      (true, { m with cache := mapDelete m.cache key,
                      totalSize := m.totalSize - (item.size : Int) })
  | none => (false, m)

/-- `clear()`. -/
def clear (m : MemoryCache) : MemoryCache :=
  { m with cache := [], totalSize := 0 }

/-- The eviction score computed inside `evictLRU`:
`(timeSinceAccess / 1000) + (age / 10000) + sizePenalty - hitCount * 100`,
where `timeSinceAccess` and `age` are in milliseconds and
`sizePenalty = size / 1024` (size in KB).  Lower score = evicted first.
The JS code computes this with IEEE doubles; the embedding uses exact
rational arithmetic. -/
def score (now : Int) (item : CacheItem) : ℚ :=
  ((now - item.lastAccess : Int) : ℚ) / 1000
    + ((now - item.createdAt : Int) : ℚ) / 10000
    + (item.size : ℚ) / 1024
    - (item.hitCount : ℚ) * 100

/-- `Number.MAX_SAFE_INTEGER`, the initial value of `lowestScore`. -/
def maxSafeInteger : ℚ := 9007199254740991

/-- `score` scaled by `640000 = lcm(1000, 10000, 1024)`, which clears all
denominators: an exact integer representative used so that score
comparisons reduce in the kernel.  `score_lt_iff` below proves the
comparison agrees with the rational score. -/
def scoreNum (now : Int) (item : CacheItem) : Int :=
  (now - item.lastAccess) * 640 + (now - item.createdAt) * 64
    + (item.size : Int) * 625 - (item.hitCount : Int) * 64000000

/-- `maxSafeInteger` scaled by the same factor. -/
def maxSafeIntegerNum : Int := 9007199254740991 * 640000

/-- The scan loop of `evictLRU` from an arbitrary accumulator
`(evictKey, lowestScore)`: keep the first entry with the strictly lowest
score. -/
def evictScanFrom (now : Int) (acc : String × Int)
    (entries : List (String × CacheItem)) : String × Int :=
  entries.foldl
    (fun acc kv =>
      if scoreNum now kv.2 < acc.2 then (kv.1, scoreNum now kv.2) else acc)
    acc

/-- The scan loop of `evictLRU`: fold over the entries keeping the first
entry with the strictly lowest score; starts from `('', MAX_SAFE_INTEGER)`.
Comparisons are carried out on the scaled integer scores, which is
equivalent to comparing the rational scores. -/
def evictScan (now : Int) (entries : List (String × CacheItem)) :
    String × Int :=
  evictScanFrom now ("", maxSafeIntegerNum) entries

/-- `evictLRU()`: returns whether an entry was evicted.  Note the JS guard
`if (evictKey)` is string truthiness, so an empty-string victim key is
treated as "nothing to evict". -/
def evictLRU (now : Int) (m : MemoryCache) : Bool × MemoryCache :=
  if m.cache.length = 0 then (false, m)
  else
    let victim := (evictScan now m.cache).1
    if victim != "" then (true, (delete victim m).2)
    else (false, m)

/-- `cleanupExpired()`: throttled full sweep deleting entries with
`now > expires`, at most once per 10 seconds. -/
def cleanupExpired (now : Int) (m : MemoryCache) : MemoryCache :=
  if now - m.lastCleanup < 10000 then m
  else
    let expiredKeys := (m.cache.filter (fun kv => now > kv.2.expires)).map Prod.fst
    let m' := expiredKeys.foldl (fun acc k => (delete k acc).2) m
    { m' with lastCleanup := now }

/-- The `while (size >= MEMORY_SIZE) { if (!evictLRU()) break; }` loop of
`set`, written with explicit fuel (each successful eviction removes an
entry, so `size + 1` steps suffice). -/
def evictLoop (cfg : Config) (now : Int) : Nat → MemoryCache → MemoryCache
  | 0, m => m
  | fuel + 1, m =>
      if m.size ≥ cfg.MEMORY_SIZE then
        let (ok, m') := evictLRU now m
        if ok then evictLoop cfg now fuel m' else m'
      else m

/-- `set(key, data, ttlSeconds)`: reject oversized values, run the throttled
expiry sweep, evict while at capacity, then insert with the TTL capped at
`MEMORY_TTL_MAX`. -/
def set (cfg : Config) (now : Int) (key : String) (data : JVal)
    (ttlSeconds : Nat) (m : MemoryCache) : Bool × MemoryCache :=
  let dataSize := estimateSize data
  if dataSize > cfg.MAX_VALUE_SIZE then (false, m)
  else
    let m1 := cleanupExpired now m
    let m2 := evictLoop cfg now (m1.size + 1) m1
    let item : CacheItem :=
      { data := data
        expires := now + (min ttlSeconds cfg.MEMORY_TTL_MAX : Nat) * 1000
        lastAccess := now
        hitCount := 1
        size := dataSize
        createdAt := now }
    let m3 :=
      match mapGet m2.cache key with
      | some old => { m2 with totalSize := m2.totalSize - (old.size : Int) }
      | none => m2
    (true, { m3 with cache := mapSet m3.cache key item,
                     totalSize := m3.totalSize + (dataSize : Int) })

/-- `get(key)`: absent if missing; lazily deletes and reports absent when
`now > expires` (strict); on a hit updates `lastAccess` and `hitCount`. -/
def get (now : Int) (key : String) (m : MemoryCache) :
    Option JVal × MemoryCache :=
  match mapGet m.cache key with
  | none => (none, m)
  | some item =>
      if now > item.expires then (none, (delete key m).2)
      else
        let item' := { item with lastAccess := now, hitCount := item.hitCount + 1 }
        (some item.data, { m with cache := mapSet m.cache key item' })

end MemoryCache

/-! ## Traffic tracker (`src/cache/traffic.ts`, class ProductionTrafficTracker)

JS objects held in the map are mutated through references; the embedding
makes the resulting map states explicit.  In particular, when the global
cleanup removes the very key being tracked, the later mutations to the
(now orphaned) object are not visible in the map, exactly as in the JS
code, which only re-inserts the object at creation time. -/

structure TrafficData where
  timestamps : List Int
  lastCleanup : Int
  totalRequests : Nat
  deriving DecidableEq, Repr

structure TrafficTracker where
  requests : List (String × TrafficData)
  lastGlobalCleanup : Int
  deriving DecidableEq, Repr

namespace TrafficTracker

def empty (now : Int) : TrafficTracker := ⟨[], now⟩

/-- The per-endpoint window filter `now - time < WINDOW_MS`. -/
def windowFilter (cfg : Config) (now : Int) (ts : List Int) : List Int :=
  ts.filter (fun t => now - t < cfg.WINDOW_MS)

/-- The predicate of `globalCleanup`: an endpoint is inactive when it has no
timestamps, or its most recent timestamp is older than the cleanup
interval. -/
def inactive (cfg : Config) (now : Int) (d : TrafficData) : Bool :=
  match d.timestamps.getLast? with
  | none => true
  | some t => now - t > cfg.TRACKER_CLEANUP_MS

/-- `globalCleanup()`: drop all inactive endpoints. -/
def globalCleanup (cfg : Config) (now : Int)
    (m : List (String × TrafficData)) : List (String × TrafficData) :=
  m.filter (fun kv => !inactive cfg now kv.2)

/-- `track(key)`: get-or-create the endpoint data, run the throttled
per-endpoint cleanup and the throttled global cleanup, filter the window,
record `now`, and return the count of requests in the window. -/
def track (cfg : Config) (now : Int) (key : String) (tt : TrafficTracker) :
    Nat × TrafficTracker :=
  let (data, m0) :=
    match mapGet tt.requests key with
    | some d => (d, tt.requests)
    | none =>
        let d : TrafficData := ⟨[], now, 0⟩
        (d, mapSet tt.requests key d)
  let data1 :=
    if now - data.lastCleanup > cfg.TRACKER_CLEANUP_MS then
      { data with timestamps := windowFilter cfg now data.timestamps,
                  lastCleanup := now }
    else data
  let m1 := mapSet m0 key data1
  let (m2, lgc) :=
    if now - tt.lastGlobalCleanup > cfg.TRACKER_CLEANUP_MS * 2 then
      (globalCleanup cfg now m1, now)
    else (m1, tt.lastGlobalCleanup)
  let data2 :=
    { data1 with timestamps := windowFilter cfg now data1.timestamps ++ [now],
                 totalRequests := data1.totalRequests + 1 }
  let m3 := if mapHas m2 key then mapSet m2 key data2 else m2
  (data2.timestamps.length, ⟨m3, lgc⟩)

/-- The effective threshold of `isHighTraffic`:
`customThreshold || CACHE_CONFIG.TRAFFIC_THRESHOLD` (JS `||`, so a custom
threshold of `0` falls back to the config default). -/
def effectiveThreshold (cfg : Config) : Option Nat → Nat
  | some t => if t = 0 then cfg.TRAFFIC_THRESHOLD else t
  | none => cfg.TRAFFIC_THRESHOLD

/-- `isHighTraffic(key, customThreshold?)`: track and compare to the
effective threshold. -/
def isHighTraffic (cfg : Config) (now : Int) (key : String)
    (customThreshold : Option Nat) (tt : TrafficTracker) :
    Bool × TrafficTracker :=
  let (count, tt') := track cfg now key tt
  (count ≥ effectiveThreshold cfg customThreshold, tt')

/-- `getCurrentCount(key)`: read-only count of requests in the window. -/
def getCurrentCount (cfg : Config) (now : Int) (key : String)
    (tt : TrafficTracker) : Nat :=
  match mapGet tt.requests key with
  | none => 0
  | some d => (windowFilter cfg now d.timestamps).length

/-- `clear()`. -/
def clear (now : Int) (_tt : TrafficTracker) : TrafficTracker := ⟨[], now⟩

end TrafficTracker

/-! ## Performance metrics (`src/cache/metrics.ts`, class PerformanceMetrics)

Only the counters are modelled; the response-time list is omitted (all
modelled durations are `0` in the single-tick time model and no claim
touches the response-time statistics). -/

structure Metrics where
  hits : Nat
  misses : Nat
  errors : Nat
  totalRequests : Nat
  deriving DecidableEq, Repr

namespace Metrics

def init : Metrics := ⟨0, 0, 0, 0⟩

/-- `recordHit(responseTime)` (counter part). -/
def recordHit (cfg : Config) (m : Metrics) : Metrics :=
  if cfg.ENABLE_METRICS then
    { m with hits := m.hits + 1, totalRequests := m.totalRequests + 1 }
  else m

/-- `recordMiss(responseTime)` (counter part). -/
def recordMiss (cfg : Config) (m : Metrics) : Metrics :=
  if cfg.ENABLE_METRICS then
    { m with misses := m.misses + 1, totalRequests := m.totalRequests + 1 }
  else m

/-- `recordError()`. -/
def recordError (cfg : Config) (m : Metrics) : Metrics :=
  if cfg.ENABLE_METRICS then
    { m with errors := m.errors + 1, totalRequests := m.totalRequests + 1 }
  else m

end Metrics

/-! ## Resilient Redis client (`src/cache/redis.ts`, class ResilientRedis)

The remote service lives outside the repository, so each operation that
reaches the network takes its outcome (`ok` with the service reply, or a
failure standing for a thrown error or the race-timeout) as an explicit
argument.  All operations are total Lean functions: nothing can throw past
the client boundary, mirroring the try/catch in every method.  The
`connectionAttempts` counter and the reconnection/health-probe timers are
not modelled (no claim depends on them); the operation metrics keep the
three counters. -/

/-- Outcome of one raced network call: the service's reply, or a thrown
error / timeout. -/
inductive NetResult (α : Type) where
  | ok (v : α)
  | err
  deriving DecidableEq, Repr

structure RedisOpMetrics where
  totalOperations : Nat
  successfulOperations : Nat
  failedOperations : Nat
  deriving DecidableEq, Repr

def RedisOpMetrics.init : RedisOpMetrics := ⟨0, 0, 0⟩

structure RedisState where
  redisAvailable : Bool
  hasClient : Bool
  isConnected : Bool
  circuitOpen : Bool
  failureCount : Nat
  lastFailure : Int
  opMetrics : RedisOpMetrics
  deriving DecidableEq, Repr

namespace RedisState

/-- `isAvailable()`: the circuit-breaker gate.  In the OPEN state, once the
cooldown has elapsed the gate itself closes the circuit and decrements the
failure count by one (the "soft reset" half-open transition), and lets the
call through. -/
def isAvailable (cfg : Config) (now : Int) (s : RedisState) :
    Bool × RedisState :=
  if !(s.redisAvailable && s.hasClient) then (false, s)
  else if !cfg.ENABLE_CIRCUIT_BREAKER then (true, s)
  else if s.circuitOpen then
    if now - s.lastFailure < cfg.CIRCUIT_RESET_TIMEOUT then (false, s)
    else
      (true, { s with circuitOpen := false,
                      failureCount := s.failureCount - 1 })
  else (true, s)

/-- `recordFailure()`: count the failure, remember its time, and open the
circuit once the failure threshold is reached. -/
def recordFailure (cfg : Config) (now : Int) (s : RedisState) : RedisState :=
  let s1 := { s with failureCount := s.failureCount + 1, lastFailure := now }
  if s1.failureCount ≥ cfg.CIRCUIT_FAILURE_THRESHOLD then
    { s1 with circuitOpen := true, isConnected := false }
  else s1

/-- `resetCircuit()`: full reset (only fires when something was recorded). -/
def resetCircuit (s : RedisState) : RedisState :=
  if s.failureCount > 0 || s.circuitOpen then
    { s with failureCount := 0, circuitOpen := false, isConnected := true }
  else s

/-- `get(key)`: returns `null` when unavailable; on success returns the
reply; on failure records it and returns `null`.  (The key only routes the
request to the external service, so it does not appear in the model.) -/
def redisGet (cfg : Config) (now : Int) (s : RedisState)
    (o : NetResult (Option JVal)) : Option JVal × RedisState :=
  let (avail, s1) := isAvailable cfg now s
  if !avail then (none, s1)
  else
    let s2 := { s1 with opMetrics :=
      { s1.opMetrics with totalOperations := s1.opMetrics.totalOperations + 1 } }
    match o with
    | .ok v =>
        (v, { s2 with opMetrics :=
          { s2.opMetrics with
              successfulOperations := s2.opMetrics.successfulOperations + 1 } })
    | .err =>
        let s3 := { s2 with opMetrics :=
          { s2.opMetrics with
              failedOperations := s2.opMetrics.failedOperations + 1 } }
        (none, recordFailure cfg now s3)

/-- `setex(key, ttl, data)`: boolean success flag; success resets the
circuit. -/
def setex (cfg : Config) (now : Int) (s : RedisState)
    (o : NetResult Unit) : Bool × RedisState :=
  let (avail, s1) := isAvailable cfg now s
  if !avail then (false, s1)
  else
    match o with
    | .ok _ => (true, resetCircuit s1)
    | .err => (false, recordFailure cfg now s1)

/-- `del(key)`: boolean success flag; success resets the circuit. -/
def del (cfg : Config) (now : Int) (s : RedisState)
    (o : NetResult Unit) : Bool × RedisState :=
  let (avail, s1) := isAvailable cfg now s
  if !avail then (false, s1)
  else
    match o with
    | .ok _ => (true, resetCircuit s1)
    | .err => (false, recordFailure cfg now s1)

/-- The method named `exists` in the source (`exists` is a Lean keyword):
`result === 1`, `false` when unavailable or on failure. -/
def existsKey (cfg : Config) (now : Int) (s : RedisState)
    (o : NetResult JVal) : Bool × RedisState :=
  let (avail, s1) := isAvailable cfg now s
  if !avail then (false, s1)
  else
    match o with
    | .ok v => (decide (v = JVal.jnum 1), s1)
    | .err => (false, recordFailure cfg now s1)

/-- `ttl(key)`: `typeof result === 'number' ? result : -1`, `-1` when
unavailable or on failure. -/
def ttlOp (cfg : Config) (now : Int) (s : RedisState)
    (o : NetResult JVal) : Int × RedisState :=
  let (avail, s1) := isAvailable cfg now s
  if !avail then (-1, s1)
  else
    match o with
    | .ok (JVal.jnum n) => (n, s1)
    | .ok _ => (-1, s1)
    | .err => (-1, recordFailure cfg now s1)

/-- `keys(pattern)`: `Array.isArray(result) ? result : []`, `[]` when
unavailable or on failure.  `o = ok none` models a non-array reply. -/
def keysOp (cfg : Config) (now : Int) (s : RedisState)
    (o : NetResult (Option (List String))) : List String × RedisState :=
  let (avail, s1) := isAvailable cfg now s
  if !avail then ([], s1)
  else
    match o with
    | .ok (some l) => (l, s1)
    | .ok none => ([], s1)
    | .err => ([], recordFailure cfg now s1)

end RedisState

/-! ## Orchestrator (`src/cache/index.ts`, class ProductionEZCache)

`fetch` takes the producer as a function `p : Nat → Except String JVal`
from the invocation index to its outcome (value or thrown error message),
so that repeated invocations within one `fetch` are observable; the world
tracks the number of invocations made so far.  Network outcomes for the
remote tier are drawn from an environment `env : Nat → NetResult (Option
JVal)` indexed by the number of network calls attempted so far. -/

/-- The third argument of `fetch`: a plain TTL number, or the options
object with its optional fields. -/
inductive FetchArg where
  | num (ttl : Nat)
  | opts (ttl : Option Nat) (minTrafficCount : Option Nat)
      (forceCaching : Option Bool)
  deriving DecidableEq, Repr

/-- Fully resolved per-call options (`CacheOptions` with all fields set). -/
structure ResolvedOptions where
  ttl : Nat
  minTrafficCount : Nat
  forceCaching : Bool
  deriving DecidableEq, Repr

/-- `getSmartTrafficThreshold(ttl)`.  `Math.floor(x * 0.1)` and
`Math.floor(x * 0.3)` are modelled by exact integer division (the float
rounding of `0.1`/`0.3` is not modelled). -/
def smartTrafficThreshold (cfg : Config) (ttl : Nat) : Nat :=
  if ttl ≤ 60 then max 3 (cfg.TRAFFIC_THRESHOLD / 10)
  else if ttl ≤ 600 then max 10 (cfg.TRAFFIC_THRESHOLD * 3 / 10)
  else cfg.TRAFFIC_THRESHOLD

/-- The options-parsing prologue of `fetch`.  Note `optionsOrTtl.ttl ||
DEFAULT_TTL` uses JS `||`, so an explicit `ttl: 0` falls back to the
default, while `minTrafficCount` uses `??` and keeps `0`. -/
def resolveOptions (cfg : Config) : Option FetchArg → ResolvedOptions
  | some (.num t) => ⟨t, smartTrafficThreshold cfg t, false⟩
  | some (.opts t mtc f) =>
      let ttlValue := match t with
        | some x => if x = 0 then cfg.DEFAULT_TTL else x
        | none => cfg.DEFAULT_TTL
      ⟨ttlValue, mtc.getD (smartTrafficThreshold cfg ttlValue), f.getD false⟩
  | none => ⟨cfg.DEFAULT_TTL, cfg.TRAFFIC_THRESHOLD, false⟩

/-- The state owned by one ProductionEZCache instance, plus the two
instrumentation counters of the embedding (`producerCalls`: how many times
the producer has been invoked; `netCalls`: how many network outcomes have
been consumed from the environment). -/
structure World where
  memory : MemoryCache
  traffic : TrafficTracker
  redisB : RedisState
  metrics : Metrics
  producerCalls : Nat
  netCalls : Nat
  deriving DecidableEq, Repr

def World.init (now : Int) (b : RedisState) : World :=
  ⟨MemoryCache.empty now, TrafficTracker.empty now, b, Metrics.init, 0, 0⟩

/-- Invoke the producer (`await fetcher()`), counting the invocation. -/
def callProducer (p : Nat → Except String JVal) (w : World) :
    Except String JVal × World :=
  (p w.producerCalls, { w with producerCalls := w.producerCalls + 1 })

/-- `this.redis.get(fullKey)` as seen by the orchestrator: consult the
breaker, consume one network outcome only if the call goes to the
network. -/
def worldRedisGet (cfg : Config) (env : Nat → NetResult (Option JVal))
    (now : Int) (w : World) : Option JVal × World :=
  let attempted := (RedisState.isAvailable cfg now w.redisB).1
  let (r, b') := RedisState.redisGet cfg now w.redisB (env w.netCalls)
  (r, { w with redisB := b',
               netCalls := if attempted then w.netCalls + 1 else w.netCalls })

/-- `this.redis.setex(fullKey, redisTtl, data)` as seen by the
orchestrator. -/
def worldRedisSetex (cfg : Config) (env : Nat → NetResult (Option JVal))
    (now : Int) (w : World) : Bool × World :=
  let attempted := (RedisState.isAvailable cfg now w.redisB).1
  let o : NetResult Unit :=
    match env w.netCalls with
    | .ok _ => .ok ()
    | .err => .err
  let (r, b') := RedisState.setex cfg now w.redisB o
  (r, { w with redisB := b',
               netCalls := if attempted then w.netCalls + 1 else w.netCalls })

def recordHitW (cfg : Config) (w : World) : World :=
  if cfg.ENABLE_METRICS then { w with metrics := Metrics.recordHit cfg w.metrics }
  else w

def recordMissW (cfg : Config) (w : World) : World :=
  if cfg.ENABLE_METRICS then { w with metrics := Metrics.recordMiss cfg w.metrics }
  else w

def recordErrorW (cfg : Config) (w : World) : World :=
  if cfg.ENABLE_METRICS then { w with metrics := Metrics.recordError cfg w.metrics }
  else w

/-- `storeInCacheLayers(fullKey, data, memoryTtl, redisTtl)`.  The remote
TTL and payload travel to the external service and are not part of the
modelled state, so `_redisTtl` is unused here. -/
def storeInCacheLayers (cfg : Config) (env : Nat → NetResult (Option JVal))
    (now : Int) (fullKey : String) (data : JVal)
    (memoryTtl _redisTtl : Nat) (w : World) : World :=
  let w1 :=
    if cfg.ENABLE_MEMORY then
      { w with memory := (MemoryCache.set cfg now fullKey data
          (min memoryTtl cfg.MEMORY_TTL_MAX) w.memory).2 }
    else w
  if cfg.ENABLE_REDIS then (worldRedisSetex cfg env now w1).2 else w1

/-- `fetchFromCacheLayers(fullKey, fetcher, memoryTtl, redisTtl)`:
memory tier, then remote tier (promoting a hit into memory), then the
producer with write-back.  A producer error propagates out of this
function (to the catch in `fetch`).  Both tier hits are guarded by JS
truthiness on the retrieved value. -/
def fetchFromCacheLayers (cfg : Config) (env : Nat → NetResult (Option JVal))
    (now : Int) (fullKey : String) (p : Nat → Except String JVal)
    (memoryTtl redisTtl : Nat) (w : World) : Except String JVal × World :=
  -- Layer 1: memory
  let (memHit, w1) :=
    if cfg.ENABLE_MEMORY then
      let (mv, mem') := MemoryCache.get now fullKey w.memory
      let w' := { w with memory := mem' }
      match mv with
      | some v => if v.truthy then (some v, w') else (none, w')
      | none => (none, w')
    else (none, w)
  match memHit with
  | some v => (.ok v, recordHitW cfg w1)
  | none =>
    -- Layer 2: Redis
    let (redisHit, w2) :=
      if cfg.ENABLE_REDIS then
        let (rv, w') := worldRedisGet cfg env now w1
        match rv with
        | some v => if v.truthy then (some v, w') else (none, w')
        | none => (none, w')
      else (none, w1)
    match redisHit with
    | some v =>
        let w3 :=
          if cfg.ENABLE_MEMORY then
            { w2 with memory := (MemoryCache.set cfg now fullKey v
                (min memoryTtl cfg.MEMORY_TTL_MAX) w2.memory).2 }
          else w2
        (.ok v, recordHitW cfg w3)
    | none =>
        -- Layer 3: database (cache miss)
        match callProducer p w2 with
        | (.error e, w3) => (.error e, w3)
        | (.ok data, w3) =>
            let w4 := storeInCacheLayers cfg env now fullKey data
              memoryTtl redisTtl w3
            (.ok data, recordMissW cfg w4)

/-- The try-block of `fetch`: the DISABLED fast path, the traffic gate
(when traffic detection is on and caching is not forced), and the tiered
lookup. -/
def fetchTryBody (cfg : Config) (env : Nat → NetResult (Option JVal))
    (now : Int) (key : String) (p : Nat → Except String JVal)
    (co : ResolvedOptions) (w : World) : Except String JVal × World :=
  let fullKey := "ez:" ++ key
  let memoryTtl := co.ttl
  let redisTtl := if cfg.ENABLE_REDIS then memoryTtl * 10 else memoryTtl
  if cfg.cacheMode = .DISABLED then callProducer p w
  else if cfg.ENABLE_TRAFFIC_DETECTION && !co.forceCaching then
    let (ht, tr') := TrafficTracker.isHighTraffic cfg now key
      (some co.minTrafficCount) w.traffic
    let w1 := { w with traffic := tr' }
    if !ht then
      match callProducer p w1 with
      | (.ok v, w2) => (.ok v, recordMissW cfg w2)
      | (.error e, w2) => (.error e, w2)
    else fetchFromCacheLayers cfg env now fullKey p memoryTtl redisTtl w1
  else fetchFromCacheLayers cfg env now fullKey p memoryTtl redisTtl w

/-- `fetch(key, fetcher, optionsOrTtl?)`.  The try/catch around the whole
body catches any error — including one thrown by the producer — records an
error metric, and falls back to one more producer invocation whose outcome
(value or error) is what the caller sees. -/
def fetch (cfg : Config) (env : Nat → NetResult (Option JVal)) (now : Int)
    (key : String) (p : Nat → Except String JVal)
    (optionsOrTtl : Option FetchArg) (w : World) :
    Except String JVal × World :=
  let co := resolveOptions cfg optionsOrTtl
  match fetchTryBody cfg env now key p co w with
  | (.ok v, w') => (.ok v, w')
  | (.error _, w') =>
      let w'' := recordErrorW cfg w'
      callProducer p w''

/-! ## Auxiliary definitions used in the claim statements -/

/-- The eviction score as written in the specification:
`secondsSinceLastAccess + ageSeconds/10000 + sizeKB - hitCount*100`.
This differs from the score computed by the code (`MemoryCache.score`),
whose second term divides the age in milliseconds by 10000.  Kept separate
so the two can be compared. -/
def specEvictionScore (now : Int) (item : CacheItem) : ℚ :=
  ((now - item.lastAccess : Int) : ℚ) / 1000
    + (((now - item.createdAt : Int) : ℚ) / 1000) / 10000
    + (item.size : ℚ) / 1024
    - (item.hitCount : ℚ) * 100

/-- Whether a network outcome would register as a remote-tier hit in the
orchestrator (an `ok` reply holding a truthy value). -/
def outcomeTruthy : NetResult (Option JVal) → Bool
  | .ok (some v) => v.truthy
  | _ => false

/-- A run of consecutive failing remote `get` operations (each raced call
errors or times out), at the given sequence of times. -/
def consecutiveFailures (cfg : Config) (ts : List Int) (s : RedisState) :
    RedisState :=
  ts.foldl (fun s t => (RedisState.redisGet cfg t s .err).2) s

deriving instance DecidableEq for Except

/-! Concrete instances used by witnesses and counterexamples. -/

/-- A memory-only configuration (Redis disabled) with a tiny local tier. -/
def cfgMemOnly : Config :=
  { ENABLE_MEMORY := true
    ENABLE_REDIS := false
    ENABLE_TRAFFIC_DETECTION := true
    ENABLE_METRICS := true
    ENABLE_CIRCUIT_BREAKER := false
    MEMORY_SIZE := 2
    MEMORY_TTL_MAX := 300
    MAX_VALUE_SIZE := 1048576
    TRAFFIC_THRESHOLD := 100
    DEFAULT_TTL := 600
    WINDOW_MS := 60000
    TRACKER_CLEANUP_MS := 300000
    CIRCUIT_FAILURE_THRESHOLD := 3
    CIRCUIT_RESET_TIMEOUT := 30000 }

/-- The same configuration with a local tier of capacity 1. -/
def cfgCap1 : Config := { cfgMemOnly with MEMORY_SIZE := 1 }

/-- A full hybrid configuration with the circuit breaker enabled and the
production defaults for the breaker (threshold 3, reset 30000 ms). -/
def cfgHybrid : Config :=
  { cfgMemOnly with ENABLE_REDIS := true, ENABLE_CIRCUIT_BREAKER := true }

/-- A breaker state that has just opened after three failures at time 0. -/
def sOpenAt0 : RedisState :=
  { redisAvailable := true
    hasClient := true
    isConnected := false
    circuitOpen := true
    failureCount := 3
    lastFailure := 0
    opMetrics := RedisOpMetrics.init }

/-- A healthy closed breaker state. -/
def sClosed : RedisState :=
  { redisAvailable := true
    hasClient := true
    isConnected := true
    circuitOpen := false
    failureCount := 0
    lastFailure := 0
    opMetrics := RedisOpMetrics.init }

/-- An environment in which every raced remote call fails. -/
def envAllFail : Nat → NetResult (Option JVal) := fun _ => .err

/-- A client state in which the Redis dependency was never available. -/
def sUnavailable : RedisState :=
  { redisAvailable := false
    hasClient := false
    isConnected := false
    circuitOpen := false
    failureCount := 0
    lastFailure := 0
    opMetrics := RedisOpMetrics.init }

/-- The memory-cache state of the C5 scenario: two entries, `a` old but
recently accessed, `b` young, both hit twice, capacity 2 reached. -/
def c5State : MemoryCache :=
  (MemoryCache.get 190000 "a"
    (MemoryCache.get 188000 "b"
      (MemoryCache.set cfgMemOnly 188000 "b" (.jnum 2) 300
        (MemoryCache.set cfgMemOnly 0 "a" (.jnum 1) 300
          (MemoryCache.empty 0)).2).2).2).2

/-- A single-entry memory cache whose entry expires exactly at t = 1000. -/
def c6State : MemoryCache :=
  ⟨[("k", ⟨.jnum 7, 1000, 0, 1, 2, 0⟩)], 2, 0⟩

/-- A full-at-capacity (capacity 1) memory cache holding one entry. -/
def c5WitnessState : MemoryCache :=
  ⟨[("x", ⟨.jnum 1, 300000, 0, 1, 2, 0⟩)], 2, 0⟩

/-- A producer whose first invocation throws and whose later invocations
succeed. -/
def c1Producer : Nat → Except String JVal :=
  fun i => if i = 0 then .error "boom" else .ok (.jnum 42)

/-- A producer that always returns the truthy value 7. -/
def okProducer : Nat → Except String JVal := fun _ => .ok (.jnum 7)

/-- A producer that always returns the falsy value 0. -/
def falsyProducer : Nat → Except String JVal := fun _ => .ok (.jnum 0)

/-- The options argument `{forceCaching: true}`. -/
def forceCachingArg : Option FetchArg := some (.opts none none (some true))

/-! ## Bridging lemmas between the rational score and its scaled integer
representative -/

theorem score_eq_scoreNum (now : Int) (it : CacheItem) :
    MemoryCache.score now it = (MemoryCache.scoreNum now it : ℚ) / 640000 := by
  unfold MemoryCache.score MemoryCache.scoreNum
  push_cast
  ring

theorem score_le_iff (now : Int) (a b : CacheItem) :
    MemoryCache.score now a ≤ MemoryCache.score now b ↔
      MemoryCache.scoreNum now a ≤ MemoryCache.scoreNum now b := by
  rw [score_eq_scoreNum, score_eq_scoreNum,
    div_le_div_iff_of_pos_right (by norm_num : (0 : ℚ) < 640000)]
  exact Int.cast_le

/-! ## The eviction scan picks an entry of minimal score -/

theorem evictScanFrom_spec (now : Int) (l : List (String × CacheItem)) :
    ∀ acc : String × Int,
      (MemoryCache.evictScanFrom now acc l = acc ∨
        ∃ kv ∈ l, MemoryCache.evictScanFrom now acc l =
          (kv.1, MemoryCache.scoreNum now kv.2)) ∧
      (MemoryCache.evictScanFrom now acc l).2 ≤ acc.2 ∧
      ∀ kv ∈ l, (MemoryCache.evictScanFrom now acc l).2 ≤
        MemoryCache.scoreNum now kv.2 := by
  induction l with
  | nil => intro acc; simp [MemoryCache.evictScanFrom]
  | cons hd tl ih =>
      intro acc
      have hcons : MemoryCache.evictScanFrom now acc (hd :: tl) =
          MemoryCache.evictScanFrom now
            (if MemoryCache.scoreNum now hd.2 < acc.2 then
              (hd.1, MemoryCache.scoreNum now hd.2) else acc) tl := by
        simp [MemoryCache.evictScanFrom]
      by_cases h : MemoryCache.scoreNum now hd.2 < acc.2
      · rw [hcons, if_pos h]
        obtain ⟨hor, hle, hall⟩ := ih (hd.1, MemoryCache.scoreNum now hd.2)
        refine ⟨?_, ?_, ?_⟩
        · rcases hor with heq | ⟨kv, hkv, heq⟩
          · exact Or.inr ⟨hd, List.mem_cons_self hd tl, heq⟩
          · exact Or.inr ⟨kv, List.mem_cons_of_mem hd hkv, heq⟩
        · exact le_trans hle (le_of_lt h)
        · intro kv hkv
          rcases List.mem_cons.mp hkv with rfl | hkv
          · exact hle
          · exact hall kv hkv
      · rw [hcons, if_neg h]
        obtain ⟨hor, hle, hall⟩ := ih acc
        refine ⟨?_, hle, ?_⟩
        · rcases hor with heq | ⟨kv, hkv, heq⟩
          · exact Or.inl heq
          · exact Or.inr ⟨kv, List.mem_cons_of_mem hd hkv, heq⟩
        · intro kv hkv
          rcases List.mem_cons.mp hkv with rfl | hkv
          · exact le_trans hle (not_lt.mp h)
          · exact hall kv hkv

/-- When the scan names a victim (nonempty key), that victim is an entry of
the cache whose score is minimal among all entries. -/
theorem evictScan_min (now : Int) (l : List (String × CacheItem))
    (hv : (MemoryCache.evictScan now l).1 ≠ "") :
    ∃ it, ((MemoryCache.evictScan now l).1, it) ∈ l ∧
      MemoryCache.scoreNum now it = (MemoryCache.evictScan now l).2 ∧
      ∀ kv ∈ l, MemoryCache.scoreNum now it ≤ MemoryCache.scoreNum now kv.2 := by
  have hdef : MemoryCache.evictScan now l =
      MemoryCache.evictScanFrom now ("", MemoryCache.maxSafeIntegerNum) l := rfl
  obtain ⟨hor, _, hall⟩ := evictScanFrom_spec now l ("", MemoryCache.maxSafeIntegerNum)
  rcases hor with heq | ⟨kv, hkv, heq⟩
  · rw [hdef] at hv
    exact absurd (congrArg Prod.fst heq) hv
  · refine ⟨kv.2, ?_, ?_, ?_⟩
    · have h1 : (MemoryCache.evictScan now l).1 = kv.1 := by
        rw [hdef, heq]
      rw [h1]
      exact hkv
    · rw [hdef, heq]
    · intro kv' hkv'
      have h2 := hall kv' hkv'
      rw [heq] at h2
      exact h2

/-! ## Association-list facts -/

theorem mem_mapHas {α : Type} {l : List (String × α)} {k : String} {v : α}
    (h : (k, v) ∈ l) : mapHas l k = true := by
  simp only [mapHas, List.any_eq_true]
  exact ⟨(k, v), h, by simp⟩

theorem mem_mapGet_isSome {α : Type} {l : List (String × α)} {k : String}
    {v : α} (h : (k, v) ∈ l) : ∃ v', mapGet l k = some v' := by
  induction l with
  | nil => simp at h
  | cons hd tl ih =>
      by_cases hk : hd.1 == k
      · exact ⟨hd.2, by simp [mapGet, List.find?_cons, hk]⟩
      · rcases List.mem_cons.mp h with heq | hmem
        · rw [← heq] at hk; simp at hk
        · obtain ⟨v', hv'⟩ := ih hmem
          refine ⟨v', ?_⟩
          simpa [mapGet, List.find?_cons, hk] using hv'

theorem mapDelete_length_lt {α : Type} {l : List (String × α)} {k : String}
    (h : mapHas l k = true) : (mapDelete l k).length < l.length := by
  induction l with
  | nil => simp [mapHas] at h
  | cons hd tl ih =>
      by_cases hk : hd.1 == k
      · have : mapDelete (hd :: tl) k = mapDelete tl k := by
          simp [mapDelete, List.filter_cons, bne, hk]
        rw [this]
        calc (mapDelete tl k).length ≤ tl.length := List.length_filter_le _ _
          _ < (hd :: tl).length := by simp
      · have hstep : mapDelete (hd :: tl) k = hd :: mapDelete tl k := by
          simp [mapDelete, List.filter_cons, bne, hk]
        have htl : mapHas tl k = true := by
          simp only [mapHas, List.any_cons, Bool.or_eq_true] at h
          rcases h with h | h
          · exact absurd h hk
          · exact h
        rw [hstep]
        simpa using Nat.succ_lt_succ (ih htl)

/-! ## C5 -/

/-- C5 (amended): when the store is at capacity, the throttle keeps the
expiry sweep from running, and the scan names a victim, inserting a new
fitting entry evicts exactly that victim, which is an entry whose code
score `(timeSinceAccessMs/1000) + (ageMs/10000) + sizeKB - hitCount*100`
is minimal among all present entries at eviction time. -/
theorem c5_evicts_lowest_code_score (cfg : Config) (now : Int) (key : String)
    (data : JVal) (ttl : Nat) (m : MemoryCache)
    (hthrottle : now - m.lastCleanup < 10000)
    (hsize : MemoryCache.estimateSize data ≤ cfg.MAX_VALUE_SIZE)
    (hcap : m.size = cfg.MEMORY_SIZE)
    (hv : (MemoryCache.evictScan now m.cache).1 ≠ "") :
    ∃ it, ((MemoryCache.evictScan now m.cache).1, it) ∈ m.cache ∧
      (∀ kv ∈ m.cache, MemoryCache.score now it ≤ MemoryCache.score now kv.2) ∧
      (MemoryCache.set cfg now key data ttl m).2.cache =
        mapSet (mapDelete m.cache (MemoryCache.evictScan now m.cache).1) key
          { data := data
            expires := now + (min ttl cfg.MEMORY_TTL_MAX : Nat) * 1000
            lastAccess := now
            hitCount := 1
            size := MemoryCache.estimateSize data
            createdAt := now } := by
  obtain ⟨it, hmem, hscoreEq, hmin⟩ := evictScan_min now m.cache hv
  refine ⟨it, hmem, fun kv hkv => (score_le_iff now it kv.2).mpr (hmin kv hkv), ?_⟩
  have hne : m.cache.length ≠ 0 := by
    intro h0
    rw [List.length_eq_zero] at h0
    rw [h0] at hmem
    simp at hmem
  obtain ⟨it0, hget0⟩ := mem_mapGet_isSome hmem
  have hdel : (MemoryCache.delete (MemoryCache.evictScan now m.cache).1 m).2 =
      { m with cache := mapDelete m.cache (MemoryCache.evictScan now m.cache).1,
               totalSize := m.totalSize - (it0.size : Int) } := by
    unfold MemoryCache.delete
    rw [hget0]
  have hLRU : MemoryCache.evictLRU now m =
      (true,
       { m with cache := mapDelete m.cache (MemoryCache.evictScan now m.cache).1,
                totalSize := m.totalSize - (it0.size : Int) }) := by
    unfold MemoryCache.evictLRU
    rw [if_neg hne, if_pos (bne_iff_ne.mpr hv), hdel]
  have hclean : MemoryCache.cleanupExpired now m = m := by
    unfold MemoryCache.cleanupExpired
    rw [if_pos hthrottle]
  have hdlt : (mapDelete m.cache (MemoryCache.evictScan now m.cache).1).length
      < cfg.MEMORY_SIZE := by
    have h1 := mapDelete_length_lt (mem_mapHas hmem)
    have h2 : m.cache.length = cfg.MEMORY_SIZE := hcap
    omega
  obtain ⟨n, hn⟩ : ∃ n, cfg.MEMORY_SIZE = n + 1 :=
    ⟨cfg.MEMORY_SIZE - 1, by have h2 : m.cache.length = cfg.MEMORY_SIZE := hcap; omega⟩
  have hloop : MemoryCache.evictLoop cfg now (m.size + 1) m =
      { m with cache := mapDelete m.cache (MemoryCache.evictScan now m.cache).1,
               totalSize := m.totalSize - (it0.size : Int) } := by
    have hge : m.size ≥ cfg.MEMORY_SIZE := le_of_eq hcap.symm
    simp only [MemoryCache.evictLoop]
    rw [hLRU]
    simp only [if_pos hge]
    have hlt : ¬ (MemoryCache.size
        { m with cache := mapDelete m.cache (MemoryCache.evictScan now m.cache).1,
                 totalSize := m.totalSize - (it0.size : Int) } ≥ cfg.MEMORY_SIZE) := by
      show ¬ (mapDelete m.cache (MemoryCache.evictScan now m.cache).1).length
          ≥ cfg.MEMORY_SIZE
      omega
    rw [show m.size = n + 1 from hcap.trans hn]
    simp only [MemoryCache.evictLoop]
    simp [hlt]
  have hbig : ¬ MemoryCache.estimateSize data > cfg.MAX_VALUE_SIZE := by omega
  simp only [MemoryCache.set, hclean]
  rw [if_neg hbig, hloop]
  cases hk : mapGet (mapDelete m.cache (MemoryCache.evictScan now m.cache).1) key <;>
    simp [hk]

/-- Witness for C5: capacity 1, one stored entry `x`, inserting `y` evicts
`x`, an entry of minimal code score. -/
theorem c5_evicts_lowest_code_score_witness :
    ((1000 : Int) - c5WitnessState.lastCleanup < 10000) ∧
    (MemoryCache.estimateSize (.jnum 9) ≤ cfgCap1.MAX_VALUE_SIZE) ∧
    (c5WitnessState.size = cfgCap1.MEMORY_SIZE) ∧
    ((MemoryCache.evictScan 1000 c5WitnessState.cache).1 ≠ "") ∧
    (∃ it, ((MemoryCache.evictScan 1000 c5WitnessState.cache).1, it) ∈
        c5WitnessState.cache ∧
      (∀ kv ∈ c5WitnessState.cache,
        MemoryCache.score 1000 it ≤ MemoryCache.score 1000 kv.2) ∧
      (MemoryCache.set cfgCap1 1000 "y" (.jnum 9) 60 c5WitnessState).2.cache =
        mapSet (mapDelete c5WitnessState.cache
            (MemoryCache.evictScan 1000 c5WitnessState.cache).1) "y"
          { data := .jnum 9
            expires := 1000 + (min 60 cfgCap1.MEMORY_TTL_MAX : Nat) * 1000
            lastAccess := 1000
            hitCount := 1
            size := MemoryCache.estimateSize (.jnum 9)
            createdAt := 1000 }) :=
  ⟨by decide, by decide, by decide, by decide,
   c5_evicts_lowest_code_score cfgCap1 1000 "y" (.jnum 9) 60 c5WitnessState
     (by decide) (by decide) (by decide) (by decide)⟩

/-- C5 counterexample: in `c5State` (capacity 2, entries `a` and `b`, both
hit twice), inserting `c` at t = 200000 evicts `b`, although `a` has the
strictly lower score under the specification formula
`secondsSinceLastAccess + ageSeconds/10000 + sizeKB - hitCount*100` — so
the evicted entry does not have the lowest spec-score among the present
entries. -/
theorem c5_counterexample :
    mapHas c5State.cache "b" = true ∧
    mapGet (MemoryCache.set cfgMemOnly 200000 "c" (.jnum 3) 300
      c5State).2.cache "b" = none ∧
    mapHas (MemoryCache.set cfgMemOnly 200000 "c" (.jnum 3) 300
      c5State).2.cache "a" = true ∧
    (∃ ia ib, mapGet c5State.cache "a" = some ia ∧
      mapGet c5State.cache "b" = some ib ∧
      specEvictionScore 200000 ia < specEvictionScore 200000 ib) := by
  refine ⟨by decide, by decide, by decide,
    ⟨.jnum 1, 300000, 190000, 2, 2, 0⟩, ⟨.jnum 2, 488000, 188000, 2, 2, 188000⟩,
    by decide, by decide, ?_⟩
  norm_num [specEvictionScore]

/-! ## C4 -/

/-- C4: the capacity invariant fails.  With capacity 1, after storing under
the empty-string key and then under `"a"`, the store holds 2 entries: the
eviction scan names the empty-string entry as victim, but `if (evictKey)`
treats the empty string as "no victim", so nothing is evicted and the
insert proceeds past capacity. -/
theorem c4_capacity_bug_eval :
    cfgCap1.MEMORY_SIZE = 1 ∧
    (MemoryCache.set cfgCap1 0 "a" (.jnum 2) 60
      (MemoryCache.set cfgCap1 0 "" (.jnum 1) 60 (MemoryCache.empty 0)).2).2.size
      = 2 := by
  decide

/-! ## C6 -/

/-- C6 (amended): `get` is absent for a missing key; it lazily deletes and
reports absent exactly when `expiresAt < now` (strict comparison: the code
tests `now > item.expires`); an entry with `expiresAt = now` is still a
hit; and on a hit it updates `lastAccess` and increments `hitCount`. -/
theorem c6_get_expiry_semantics (now : Int) (key : String) (m : MemoryCache) :
    (mapGet m.cache key = none → MemoryCache.get now key m = (none, m)) ∧
    (∀ item : CacheItem, mapGet m.cache key = some item → item.expires < now →
      MemoryCache.get now key m = (none, (MemoryCache.delete key m).2)) ∧
    (∀ item : CacheItem, mapGet m.cache key = some item → now ≤ item.expires →
      MemoryCache.get now key m =
        (some item.data,
         { m with
            cache := mapSet m.cache key { item with lastAccess := now, hitCount := item.hitCount + 1 } })) := by
  refine ⟨?_, ?_, ?_⟩
  · intro h
    unfold MemoryCache.get
    rw [h]
  · intro item h hexp
    unfold MemoryCache.get
    rw [h]
    simp [hexp]
  · intro item h hexp
    unfold MemoryCache.get
    rw [h]
    simp [not_lt.mpr hexp]

/-- Witness for C6: a hit strictly before expiry returns the value and
bumps the access statistics. -/
theorem c6_get_expiry_semantics_witness :
    MemoryCache.get 5 "k" c6State =
      (some (.jnum 7),
       { c6State with cache := mapSet c6State.cache "k" ⟨.jnum 7, 1000, 5, 2, 2, 0⟩ }) :=
  (c6_get_expiry_semantics 5 "k" c6State).2.2 ⟨.jnum 7, 1000, 0, 1, 2, 0⟩
    (by decide) (by decide)

/-- C6 counterexample: the claim says an entry whose `expiresAt` equals
`now` is treated as absent, but the code tests `now > expires`, so at
`now = expiresAt = 1000` the entry is returned as a hit. -/
theorem c6_counterexample :
    (mapGet c6State.cache "k").map CacheItem.expires = some 1000 ∧
    (MemoryCache.get 1000 "k" c6State).1 = some (.jnum 7) ∧
    (MemoryCache.get 1000 "k" c6State).1 ≠ none := by
  decide

/-! ## C7 -/

/-- A run of consecutive failing gets from a closed breaker state: the
failure count grows by one per failure, and the circuit is open exactly
when the threshold has been reached by a nonempty run. -/
theorem consecutiveFailures_closed (cfg : Config)
    (hcb : cfg.ENABLE_CIRCUIT_BREAKER = true) :
    ∀ (ts : List Int) (s : RedisState),
      s.redisAvailable = true → s.hasClient = true → s.circuitOpen = false →
      s.failureCount + ts.length ≤ cfg.CIRCUIT_FAILURE_THRESHOLD →
      (consecutiveFailures cfg ts s).failureCount = s.failureCount + ts.length ∧
      (consecutiveFailures cfg ts s).circuitOpen =
        decide (ts ≠ [] ∧
          cfg.CIRCUIT_FAILURE_THRESHOLD ≤ s.failureCount + ts.length) := by
  intro ts
  induction ts with
  | nil =>
      intro s h1 h2 h3 _h4
      simp [consecutiveFailures, h3]
  | cons t rest ih =>
      intro s h1 h2 h3 h4
      have hstep : consecutiveFailures cfg (t :: rest) s =
          consecutiveFailures cfg rest (RedisState.redisGet cfg t s .err).2 := by
        simp [consecutiveFailures]
      by_cases hT : cfg.CIRCUIT_FAILURE_THRESHOLD ≤ s.failureCount + 1
      · have hrest : rest = [] := by
          rw [← List.length_eq_zero]
          simp only [List.length_cons] at h4
          omega
        subst hrest
        rw [hstep]
        simp [consecutiveFailures, RedisState.redisGet, RedisState.isAvailable,
          RedisState.recordFailure, h1, h2, h3, hcb, hT]
      · rw [hstep]
        have hget : (RedisState.redisGet cfg t s .err).2 =
            { s with failureCount := s.failureCount + 1, lastFailure := t,
                     opMetrics :=
                      { totalOperations := s.opMetrics.totalOperations + 1
                        successfulOperations := s.opMetrics.successfulOperations
                        failedOperations := s.opMetrics.failedOperations + 1 } } := by
          simp [RedisState.redisGet, RedisState.isAvailable,
            RedisState.recordFailure, h1, h2, h3, hcb, hT]
        rw [hget]
        have hlen' : s.failureCount + 1 + rest.length ≤
            cfg.CIRCUIT_FAILURE_THRESHOLD := by
          simp only [List.length_cons] at h4
          omega
        obtain ⟨ihfc, ihop⟩ := ih
          { s with failureCount := s.failureCount + 1, lastFailure := t,
                   opMetrics :=
                    { totalOperations := s.opMetrics.totalOperations + 1
                      successfulOperations := s.opMetrics.successfulOperations
                      failedOperations := s.opMetrics.failedOperations + 1 } }
          h1 h2 h3 hlen'
        dsimp only at ihfc ihop
        constructor
        · rw [ihfc]
          simp only [List.length_cons]
          omega
        · rw [ihop, decide_eq_decide]
          constructor
          · rintro ⟨hne, hle⟩
            refine ⟨List.cons_ne_nil t rest, ?_⟩
            simp only [List.length_cons]
            omega
          · rintro ⟨-, hle⟩
            simp only [List.length_cons] at hle
            have hne : rest ≠ [] := by
              intro h0
              rw [h0] at hle
              simp at hle
              omega
            exact ⟨hne, by omega⟩

/-- C7: with the breaker enabled — (1) while the circuit is open and the
cooldown has not elapsed, `isAvailable` rejects without touching the state
and every remote operation returns its safe value with the state
completely unchanged (no network attempt, no failure-count change,
independent of the network outcome); (2) from a clean closed state,
`failureThreshold` consecutive failures leave the circuit open with
`failureCount = failureThreshold`; (3) once the cooldown has elapsed, the
next call is allowed through. -/
theorem c7_breaker_open_semantics (cfg : Config)
    (hcb : cfg.ENABLE_CIRCUIT_BREAKER = true) :
    (∀ (now : Int) (s : RedisState), s.redisAvailable = true →
      s.hasClient = true → s.circuitOpen = true →
      now - s.lastFailure < cfg.CIRCUIT_RESET_TIMEOUT →
      RedisState.isAvailable cfg now s = (false, s) ∧
      (∀ o, RedisState.redisGet cfg now s o = (none, s)) ∧
      (∀ o, RedisState.setex cfg now s o = (false, s)) ∧
      (∀ o, RedisState.del cfg now s o = (false, s)) ∧
      (∀ o, RedisState.existsKey cfg now s o = (false, s)) ∧
      (∀ o, RedisState.ttlOp cfg now s o = (-1, s)) ∧
      (∀ o, RedisState.keysOp cfg now s o = ([], s))) ∧
    (∀ (ts : List Int) (s : RedisState), s.redisAvailable = true →
      s.hasClient = true → s.circuitOpen = false → s.failureCount = 0 →
      ts.length = cfg.CIRCUIT_FAILURE_THRESHOLD →
      1 ≤ cfg.CIRCUIT_FAILURE_THRESHOLD →
      (consecutiveFailures cfg ts s).circuitOpen = true ∧
      (consecutiveFailures cfg ts s).failureCount =
        cfg.CIRCUIT_FAILURE_THRESHOLD) ∧
    (∀ (now : Int) (s : RedisState), s.redisAvailable = true →
      s.hasClient = true → s.circuitOpen = true →
      cfg.CIRCUIT_RESET_TIMEOUT ≤ now - s.lastFailure →
      (RedisState.isAvailable cfg now s).1 = true) := by
  refine ⟨?_, ?_, ?_⟩
  · intro now s h1 h2 h3 h4
    have hA : RedisState.isAvailable cfg now s = (false, s) := by
      simp [RedisState.isAvailable, h1, h2, h3, h4, hcb]
    refine ⟨hA, ?_, ?_, ?_, ?_, ?_, ?_⟩ <;> intro o
    · simp [RedisState.redisGet, hA]
    · simp [RedisState.setex, hA]
    · simp [RedisState.del, hA]
    · simp [RedisState.existsKey, hA]
    · simp [RedisState.ttlOp, hA]
    · simp [RedisState.keysOp, hA]
  · intro ts s h1 h2 h3 h5 hlen hpos
    obtain ⟨hfc, hop⟩ := consecutiveFailures_closed cfg hcb ts s h1 h2 h3
      (by omega)
    have hne : ts ≠ [] := by
      intro h0
      rw [h0] at hlen
      simp at hlen
      omega
    constructor
    · rw [hop]
      simp [hne]
      omega
    · rw [hfc, h5, hlen]
      simp
  · intro now s h1 h2 h3 h4
    simp [RedisState.isAvailable, h1, h2, h3, hcb, not_lt.mpr h4]

/-- Witness for C7: with the default breaker settings (threshold 3, reset
30000 ms), an open breaker rejects a get at t = 1000 untouched, three
failures from a clean state open the circuit, and the call at t = 30000 is
allowed through. -/
theorem c7_breaker_open_semantics_witness :
    RedisState.isAvailable cfgHybrid 1000 sOpenAt0 = (false, sOpenAt0) ∧
    RedisState.redisGet cfgHybrid 1000 sOpenAt0 .err = (none, sOpenAt0) ∧
    (consecutiveFailures cfgHybrid [10, 20, 30] sClosed).circuitOpen = true ∧
    (consecutiveFailures cfgHybrid [10, 20, 30] sClosed).failureCount = 3 ∧
    (RedisState.isAvailable cfgHybrid 30000 sOpenAt0).1 = true := by
  obtain ⟨p1, p2, p3⟩ := c7_breaker_open_semantics cfgHybrid (by decide)
  obtain ⟨q1, q2, _⟩ := p1 1000 sOpenAt0 (by decide) (by decide) (by decide)
    (by decide)
  obtain ⟨r1, r2⟩ := p2 [10, 20, 30] sClosed (by decide) (by decide) (by decide)
    (by decide) (by decide) (by decide)
  exact ⟨q1, q2 .err, r1, r2, p3 30000 sOpenAt0 (by decide) (by decide)
    (by decide) (by decide)⟩

/-! ## C8 -/

/-- C8 (amended): once the cooldown has elapsed, a call is let through with
the circuit closed and the failure count merely decremented by one (the
half-open soft reset).  A success then fully resets the breaker
(`failureCount = 0`, `isOpen = false`) only for `setWithExpiry` and
`delete`; for `get`, `exists`, `timeToLive` and `listKeysByPattern` a
success leaves the breaker closed with `failureCount` equal to the
decremented value, not zero.  A failure on the let-through call re-opens
the circuit and refreshes `lastFailureAt`. -/
theorem c8_halfopen_reset_asymmetry (cfg : Config) (now : Int)
    (s : RedisState) (hcb : cfg.ENABLE_CIRCUIT_BREAKER = true)
    (h1 : s.redisAvailable = true) (h2 : s.hasClient = true)
    (h3 : s.circuitOpen = true)
    (h4 : cfg.CIRCUIT_RESET_TIMEOUT ≤ now - s.lastFailure)
    (h5 : cfg.CIRCUIT_FAILURE_THRESHOLD ≤ s.failureCount)
    (h6 : 1 ≤ cfg.CIRCUIT_FAILURE_THRESHOLD) :
    (∀ u, (RedisState.setex cfg now s (.ok u)).1 = true ∧
      (RedisState.setex cfg now s (.ok u)).2.failureCount = 0 ∧
      (RedisState.setex cfg now s (.ok u)).2.circuitOpen = false) ∧
    (∀ u, (RedisState.del cfg now s (.ok u)).1 = true ∧
      (RedisState.del cfg now s (.ok u)).2.failureCount = 0 ∧
      (RedisState.del cfg now s (.ok u)).2.circuitOpen = false) ∧
    (∀ v, (RedisState.redisGet cfg now s (.ok v)).1 = v ∧
      (RedisState.redisGet cfg now s (.ok v)).2.failureCount =
        s.failureCount - 1 ∧
      (RedisState.redisGet cfg now s (.ok v)).2.circuitOpen = false) ∧
    (∀ v, (RedisState.existsKey cfg now s (.ok v)).2.failureCount =
        s.failureCount - 1 ∧
      (RedisState.existsKey cfg now s (.ok v)).2.circuitOpen = false) ∧
    (∀ v, (RedisState.ttlOp cfg now s (.ok v)).2.failureCount =
        s.failureCount - 1 ∧
      (RedisState.ttlOp cfg now s (.ok v)).2.circuitOpen = false) ∧
    (∀ lo, (RedisState.keysOp cfg now s (.ok lo)).2.failureCount =
        s.failureCount - 1 ∧
      (RedisState.keysOp cfg now s (.ok lo)).2.circuitOpen = false) ∧
    ((RedisState.redisGet cfg now s .err).2.circuitOpen = true ∧
      (RedisState.redisGet cfg now s .err).2.lastFailure = now ∧
      (RedisState.redisGet cfg now s .err).2.failureCount = s.failureCount) := by
  have hA : RedisState.isAvailable cfg now s =
      (true, { s with circuitOpen := false,
                      failureCount := s.failureCount - 1 }) := by
    simp [RedisState.isAvailable, h1, h2, h3, hcb, not_lt.mpr h4]
  have hfc1 : 1 ≤ s.failureCount := le_trans h6 h5
  refine ⟨?_, ?_, ?_, ?_, ?_, ?_, ?_⟩
  · intro u
    simp only [RedisState.setex, hA]
    by_cases hz : s.failureCount - 1 > 0 <;>
      simp [RedisState.resetCircuit, hz] <;> omega
  · intro u
    simp only [RedisState.del, hA]
    by_cases hz : s.failureCount - 1 > 0 <;>
      simp [RedisState.resetCircuit, hz] <;> omega
  · intro v
    simp [RedisState.redisGet, hA]
  · intro v
    simp [RedisState.existsKey, hA]
  · intro v
    cases v <;> simp [RedisState.ttlOp, hA]
  · intro lo
    cases lo <;> simp [RedisState.keysOp, hA]
  · have hre : cfg.CIRCUIT_FAILURE_THRESHOLD ≤ s.failureCount - 1 + 1 := by omega
    simp [RedisState.redisGet, hA, RedisState.recordFailure, hre]
    omega

/-- Witness for C8: the default breaker, open with 3 failures, cooldown
elapsed at t = 30000. -/
theorem c8_halfopen_reset_asymmetry_witness :
    (RedisState.setex cfgHybrid 30000 sOpenAt0 (.ok ())).2.failureCount = 0 ∧
    (RedisState.redisGet cfgHybrid 30000 sOpenAt0
      (.ok (some (.jnum 5)))).2.failureCount = sOpenAt0.failureCount - 1 ∧
    (RedisState.redisGet cfgHybrid 30000 sOpenAt0 .err).2.circuitOpen = true := by
  obtain ⟨p1, _, p3, _, _, _, p7⟩ := c8_halfopen_reset_asymmetry cfgHybrid
    30000 sOpenAt0 (by decide) (by decide) (by decide) (by decide) (by decide)
    (by decide) (by decide)
  exact ⟨(p1 ()).2.1, (p3 (some (.jnum 5))).2.1, p7.1⟩

/-- C8 counterexample: the claim says a successful remote operation after
the cooldown fully resets the breaker for every operation, but a
successful `get` leaves `failureCount = 2` (the half-open decrement of 3),
not 0. -/
theorem c8_counterexample :
    (RedisState.redisGet cfgHybrid 30000 sOpenAt0
      (.ok (some (.jnum 5)))).1 = some (.jnum 5) ∧
    (RedisState.redisGet cfgHybrid 30000 sOpenAt0
      (.ok (some (.jnum 5)))).2.failureCount = 2 ∧
    (RedisState.redisGet cfgHybrid 30000 sOpenAt0
      (.ok (some (.jnum 5)))).2.failureCount ≠ 0 := by
  decide

/-! ## C9 -/

/-- C9: every remote operation is a total function (nothing escapes the
client boundary), and on a failed raced call — or when the client is
permanently unavailable, whatever the would-be outcome — each operation
returns its safe empty value: `get → null`, `setWithExpiry → false`,
`delete → false`, `exists → false`, `timeToLive → -1`,
`listKeysByPattern → []`. -/
theorem c9_remote_ops_safe_returns :
    (∀ (cfg : Config) (now : Int) (s : RedisState),
      (RedisState.redisGet cfg now s .err).1 = none ∧
      (RedisState.setex cfg now s .err).1 = false ∧
      (RedisState.del cfg now s .err).1 = false ∧
      (RedisState.existsKey cfg now s .err).1 = false ∧
      (RedisState.ttlOp cfg now s .err).1 = -1 ∧
      (RedisState.keysOp cfg now s .err).1 = []) ∧
    (∀ (cfg : Config) (now : Int) (s : RedisState),
      s.redisAvailable = false →
      (∀ o, (RedisState.redisGet cfg now s o).1 = none) ∧
      (∀ o, (RedisState.setex cfg now s o).1 = false) ∧
      (∀ o, (RedisState.del cfg now s o).1 = false) ∧
      (∀ o, (RedisState.existsKey cfg now s o).1 = false) ∧
      (∀ o, (RedisState.ttlOp cfg now s o).1 = -1) ∧
      (∀ o, (RedisState.keysOp cfg now s o).1 = [])) := by
  constructor
  · intro cfg now s
    rcases hA : RedisState.isAvailable cfg now s with ⟨avail, s1⟩
    refine ⟨?_, ?_, ?_, ?_, ?_, ?_⟩ <;>
      cases avail <;>
        simp [RedisState.redisGet, RedisState.setex, RedisState.del,
          RedisState.existsKey, RedisState.ttlOp, RedisState.keysOp, hA]
  · intro cfg now s h
    have hA : RedisState.isAvailable cfg now s = (false, s) := by
      simp [RedisState.isAvailable, h]
    refine ⟨?_, ?_, ?_, ?_, ?_, ?_⟩ <;> intro o <;>
      simp [RedisState.redisGet, RedisState.setex, RedisState.del,
        RedisState.existsKey, RedisState.ttlOp, RedisState.keysOp, hA]

/-- Witness for C9: the unavailable client returns the safe values for a
would-be successful outcome. -/
theorem c9_remote_ops_safe_returns_witness :
    sUnavailable.redisAvailable = false ∧
    (RedisState.redisGet cfgHybrid 0 sUnavailable
      (.ok (some (.jnum 1)))).1 = none ∧
    (RedisState.ttlOp cfgHybrid 0 sUnavailable (.ok (.jnum 42))).1 = -1 := by
  obtain ⟨g, _, _, _, t, _⟩ := c9_remote_ops_safe_returns.2 cfgHybrid 0
    sUnavailable (by decide)
  exact ⟨by decide, g (.ok (some (.jnum 1))), t (.ok (.jnum 42))⟩

/-! ## Orchestrator plumbing lemmas -/

/-- Under an environment with no truthy replies, the orchestrator-level
remote get never produces a tier hit, and it leaves every world component
other than the breaker state and the network-call counter unchanged. -/
theorem worldRedisGet_spec (cfg : Config) (env : Nat → NetResult (Option JVal))
    (now : Int) (w : World) (henv : ∀ i, outcomeTruthy (env i) = false) :
    ((worldRedisGet cfg env now w).1 = none ∨
      ∃ x, (worldRedisGet cfg env now w).1 = some x ∧ x.truthy = false) ∧
    (worldRedisGet cfg env now w).2.memory = w.memory ∧
    (worldRedisGet cfg env now w).2.traffic = w.traffic ∧
    (worldRedisGet cfg env now w).2.producerCalls = w.producerCalls ∧
    (worldRedisGet cfg env now w).2.metrics = w.metrics := by
  have hmain : ∀ r b',
      RedisState.redisGet cfg now w.redisB (env w.netCalls) = (r, b') →
      (r = none ∨ ∃ x, r = some x ∧ x.truthy = false) := by
    intro r b' hG
    unfold RedisState.redisGet at hG
    rcases hA : RedisState.isAvailable cfg now w.redisB with ⟨avail, b1⟩
    rw [hA] at hG
    cases avail
    · simp only [Prod.mk.injEq] at hG
      simp at hG
      exact Or.inl hG.1.symm
    · cases he : env w.netCalls with
      | err =>
          rw [he] at hG
          simp [Prod.mk.injEq] at hG
          exact Or.inl hG.1.symm
      | ok vv =>
          have ht := henv w.netCalls
          rw [he] at ht hG
          cases vv with
          | none =>
              simp [Prod.mk.injEq] at hG
              exact Or.inl hG.1.symm
          | some x =>
              simp [Prod.mk.injEq] at hG
              refine Or.inr ⟨x, hG.1.symm, ?_⟩
              simpa [outcomeTruthy] using ht
  unfold worldRedisGet
  rcases hG : RedisState.redisGet cfg now w.redisB (env w.netCalls) with ⟨r, b'⟩
  exact ⟨hmain r b' hG, rfl, rfl, rfl, rfl⟩

/-- The orchestrator-level remote setex leaves every world component other
than the breaker state and the network-call counter unchanged. -/
theorem worldRedisSetex_spec (cfg : Config)
    (env : Nat → NetResult (Option JVal)) (now : Int) (w : World) :
    (worldRedisSetex cfg env now w).2.memory = w.memory ∧
    (worldRedisSetex cfg env now w).2.traffic = w.traffic ∧
    (worldRedisSetex cfg env now w).2.producerCalls = w.producerCalls ∧
    (worldRedisSetex cfg env now w).2.metrics = w.metrics := by
  unfold worldRedisSetex
  rcases hS : RedisState.setex cfg now w.redisB
    (match env w.netCalls with | .ok _ => .ok () | .err => .err) with ⟨r, b'⟩
  exact ⟨rfl, rfl, rfl, rfl⟩

/-- `storeInCacheLayers` only touches the memory tier (when enabled) and
the remote client state. -/
theorem storeInCacheLayers_spec (cfg : Config)
    (env : Nat → NetResult (Option JVal)) (now : Int) (fullKey : String)
    (data : JVal) (mTtl rTtl : Nat) (w : World) :
    (storeInCacheLayers cfg env now fullKey data mTtl rTtl w).producerCalls
      = w.producerCalls ∧
    (storeInCacheLayers cfg env now fullKey data mTtl rTtl w).traffic
      = w.traffic ∧
    (storeInCacheLayers cfg env now fullKey data mTtl rTtl w).memory =
      (if cfg.ENABLE_MEMORY then
        (MemoryCache.set cfg now fullKey data
          (min mTtl cfg.MEMORY_TTL_MAX) w.memory).2
       else w.memory) := by
  unfold storeInCacheLayers
  by_cases hm : cfg.ENABLE_MEMORY <;> by_cases hr : cfg.ENABLE_REDIS <;>
    simp only [hm, hr, if_true, if_false] <;> exact ⟨rfl, rfl, rfl⟩

/-- `get` on an empty memory cache misses without mutating anything. -/
theorem memoryGet_empty (now n0 : Int) (key : String) :
    MemoryCache.get now key (MemoryCache.empty n0) =
      (none, MemoryCache.empty n0) := by
  unfold MemoryCache.get MemoryCache.empty mapGet
  simp

/-- The eviction loop leaves a store with an empty entry map unchanged. -/
theorem evictLoop_nil (cfg : Config) (now : Int) (fuel : Nat)
    (m : MemoryCache) (h : m.cache = []) :
    MemoryCache.evictLoop cfg now fuel m = m := by
  cases fuel with
  | zero => rfl
  | succ n =>
      simp only [MemoryCache.evictLoop, MemoryCache.evictLRU, h]
      simp [MemoryCache.size, h]

/-- `set` on an empty store inserts exactly one fresh entry. -/
theorem set_empty_cache (cfg : Config) (now n0 : Int) (key : String)
    (data : JVal) (ttl : Nat)
    (hsz : MemoryCache.estimateSize data ≤ cfg.MAX_VALUE_SIZE) :
    (MemoryCache.set cfg now key data ttl (MemoryCache.empty n0)).2.cache =
      [(key, { data := data
               expires := now + (min ttl cfg.MEMORY_TTL_MAX : Nat) * 1000
               lastAccess := now
               hitCount := 1
               size := MemoryCache.estimateSize data
               createdAt := now })] := by
  have hbig : ¬ MemoryCache.estimateSize data > cfg.MAX_VALUE_SIZE := by omega
  simp only [MemoryCache.set]
  rw [if_neg hbig]
  have h1 : (MemoryCache.cleanupExpired now (MemoryCache.empty n0)).cache
      = [] := by
    unfold MemoryCache.cleanupExpired MemoryCache.empty
    split_ifs <;> rfl
  rw [evictLoop_nil cfg now _ _ h1]
  simp [mapGet, h1, mapSet]

/-- The metric recorders never touch the caches, the breaker, the network
counter or the producer counter. -/
theorem recordErrorW_spec (cfg : Config) (w : World) :
    (recordErrorW cfg w).producerCalls = w.producerCalls ∧
    (recordErrorW cfg w).memory = w.memory ∧
    (recordErrorW cfg w).traffic = w.traffic ∧
    (recordErrorW cfg w).redisB = w.redisB ∧
    (recordErrorW cfg w).netCalls = w.netCalls := by
  unfold recordErrorW
  split_ifs <;> exact ⟨rfl, rfl, rfl, rfl, rfl⟩

theorem recordMissW_spec (cfg : Config) (w : World) :
    (recordMissW cfg w).producerCalls = w.producerCalls ∧
    (recordMissW cfg w).memory = w.memory ∧
    (recordMissW cfg w).traffic = w.traffic ∧
    (recordMissW cfg w).redisB = w.redisB ∧
    (recordMissW cfg w).netCalls = w.netCalls := by
  unfold recordMissW
  split_ifs <;> exact ⟨rfl, rfl, rfl, rfl, rfl⟩

theorem recordMissW_misses (cfg : Config) (w : World)
    (hmet : cfg.ENABLE_METRICS = true) :
    (recordMissW cfg w).metrics.misses = w.metrics.misses + 1 := by
  simp [recordMissW, Metrics.recordMiss, hmet]

/-- A cold tiered lookup: if the memory tier misses without mutation and
the environment offers no truthy remote reply, the lookup reaches the
producer (invoking it exactly once more) and, on success, writes back and
records a miss; on error the error propagates.  The intermediate world
`w2` differs from `w` only in breaker state and network-call count. -/
theorem layers_cold_miss (cfg : Config) (env : Nat → NetResult (Option JVal))
    (now : Int) (fullKey : String) (p : Nat → Except String JVal)
    (mTtl rTtl : Nat) (w : World)
    (hmemget : MemoryCache.get now fullKey w.memory = (none, w.memory))
    (henv : ∀ i, outcomeTruthy (env i) = false) :
    ∃ w2 : World, w2.memory = w.memory ∧ w2.traffic = w.traffic ∧
      w2.producerCalls = w.producerCalls ∧ w2.metrics = w.metrics ∧
      fetchFromCacheLayers cfg env now fullKey p mTtl rTtl w =
        (match p w2.producerCalls with
         | .error e =>
             (.error e, { w2 with producerCalls := w2.producerCalls + 1 })
         | .ok data =>
             (.ok data, recordMissW cfg
               (storeInCacheLayers cfg env now fullKey data mTtl rTtl
                 { w2 with producerCalls := w2.producerCalls + 1 }))) := by
  unfold fetchFromCacheLayers
  by_cases hm : cfg.ENABLE_MEMORY
  · simp only [hm, if_true, hmemget]
    by_cases hr : cfg.ENABLE_REDIS
    · simp only [hr, if_true]
      rcases hg : worldRedisGet cfg env now { w with memory := w.memory }
        with ⟨rv, wg⟩
      have hspec := worldRedisGet_spec cfg env now
        { w with memory := w.memory } henv
      rw [hg] at hspec
      obtain ⟨hdisj, hwm, hwt, hwp, hwmet⟩ := hspec
      refine ⟨wg, hwm, hwt, hwp, hwmet, ?_⟩
      rcases hdisj with hnone | ⟨x, hx, hxf⟩
      · have hrv : rv = none := hnone
        subst hrv
        cases hpw : p wg.producerCalls <;> simp [callProducer, hpw, hg]
      · have hrv : rv = some x := hx
        subst hrv
        cases hpw : p wg.producerCalls <;> simp [callProducer, hpw, hxf, hg]
    · simp only [hr, if_false]
      refine ⟨{ w with memory := w.memory }, rfl, rfl, rfl, rfl, ?_⟩
      cases hpw : p w.producerCalls <;> simp [callProducer, hpw]
  · simp only [hm, if_false]
    by_cases hr : cfg.ENABLE_REDIS
    · simp only [hr, if_true]
      rcases hg : worldRedisGet cfg env now w with ⟨rv, wg⟩
      have hspec := worldRedisGet_spec cfg env now w henv
      rw [hg] at hspec
      obtain ⟨hdisj, hwm, hwt, hwp, hwmet⟩ := hspec
      refine ⟨wg, hwm, hwt, hwp, hwmet, ?_⟩
      rcases hdisj with hnone | ⟨x, hx, hxf⟩
      · have hrv : rv = none := hnone
        subst hrv
        cases hpw : p wg.producerCalls <;> simp [callProducer, hpw, hg]
      · have hrv : rv = some x := hx
        subst hrv
        cases hpw : p wg.producerCalls <;> simp [callProducer, hpw, hxf, hg]
    · simp only [hr, if_false]
      refine ⟨w, rfl, rfl, rfl, rfl, ?_⟩
      cases hpw : p w.producerCalls <;> simp [callProducer, hpw]

theorem recordHitW_spec (cfg : Config) (w : World) :
    (recordHitW cfg w).producerCalls = w.producerCalls ∧
    (recordHitW cfg w).memory = w.memory := by
  unfold recordHitW
  split_ifs <;> exact ⟨rfl, rfl⟩

/-- When the memory tier holds a single unexpired truthy entry under the
looked-up key, the tiered lookup answers from memory without invoking the
producer. -/
theorem layers_memory_hit (cfg : Config) (env : Nat → NetResult (Option JVal))
    (now : Int) (fullKey : String) (p : Nat → Except String JVal)
    (mTtl rTtl : Nat) (w : World) (item : CacheItem)
    (hm : cfg.ENABLE_MEMORY = true)
    (hc : w.memory.cache = [(fullKey, item)])
    (hexp : now ≤ item.expires)
    (htr : item.data.truthy = true) :
    (fetchFromCacheLayers cfg env now fullKey p mTtl rTtl w).1 =
      .ok item.data ∧
    (fetchFromCacheLayers cfg env now fullKey p mTtl rTtl w).2.producerCalls
      = w.producerCalls := by
  have hmg : mapGet w.memory.cache fullKey = some item := by
    rw [hc]
    simp [mapGet]
  have hget : MemoryCache.get now fullKey w.memory =
      (some item.data,
       { w.memory with
          cache := mapSet w.memory.cache fullKey { item with lastAccess := now, hitCount := item.hitCount + 1 } }) := by
    unfold MemoryCache.get
    rw [hmg]
    dsimp only
    rw [if_neg (not_lt.mpr hexp)]
  unfold fetchFromCacheLayers
  simp only [hm, if_true, hget, htr]
  exact ⟨trivial, (recordHitW_spec cfg _).1⟩

/-- With a non-DISABLED mode and forced caching, the try-body goes straight
to the tiered lookup. -/
theorem fetchTryBody_forced (cfg : Config)
    (env : Nat → NetResult (Option JVal)) (now : Int) (key : String)
    (p : Nat → Except String JVal) (co : ResolvedOptions) (w : World)
    (hdis : ¬ cfg.cacheMode = .DISABLED)
    (hforce : co.forceCaching = true) :
    fetchTryBody cfg env now key p co w =
      fetchFromCacheLayers cfg env now ("ez:" ++ key) p co.ttl
        (if cfg.ENABLE_REDIS then co.ttl * 10 else co.ttl) w := by
  unfold fetchTryBody
  rw [if_neg hdis]
  simp [hforce]

/-- Unfolding `fetch` through a successful try-body. -/
theorem fetch_of_body_ok (cfg : Config) (env : Nat → NetResult (Option JVal))
    (now : Int) (key : String) (p : Nat → Except String JVal)
    (optionsOrTtl : Option FetchArg) (w w' : World) (v : JVal)
    (hb : fetchTryBody cfg env now key p (resolveOptions cfg optionsOrTtl) w
      = (.ok v, w')) :
    fetch cfg env now key p optionsOrTtl w = (.ok v, w') := by
  simp only [fetch]
  rw [hb]

/-- Unfolding `fetch` through a failed try-body: the catch records an error
metric and invokes the producer once more, returning whatever it yields. -/
theorem fetch_of_body_error (cfg : Config)
    (env : Nat → NetResult (Option JVal)) (now : Int) (key : String)
    (p : Nat → Except String JVal) (optionsOrTtl : Option FetchArg)
    (w w' : World) (e : String)
    (hb : fetchTryBody cfg env now key p (resolveOptions cfg optionsOrTtl) w
      = (.error e, w')) :
    fetch cfg env now key p optionsOrTtl w =
      (p (recordErrorW cfg w').producerCalls,
       { recordErrorW cfg w' with
          producerCalls := (recordErrorW cfg w').producerCalls + 1 }) := by
  simp only [fetch]
  rw [hb]
  rfl

/-- When the try-body succeeds, `fetch` returns its result and state. -/
theorem fetch_body_ok_cases (cfg : Config)
    (env : Nat → NetResult (Option JVal)) (now : Int) (key : String)
    (p : Nat → Except String JVal) (optionsOrTtl : Option FetchArg)
    (w : World) (v : JVal)
    (h : (fetchTryBody cfg env now key p (resolveOptions cfg optionsOrTtl)
      w).1 = .ok v) :
    (fetch cfg env now key p optionsOrTtl w).1 = .ok v ∧
    (fetch cfg env now key p optionsOrTtl w).2 =
      (fetchTryBody cfg env now key p (resolveOptions cfg optionsOrTtl)
        w).2 := by
  simp only [fetch]
  rcases hb : fetchTryBody cfg env now key p (resolveOptions cfg optionsOrTtl)
    w with ⟨r, w'⟩
  rw [hb] at h
  have hr : r = .ok v := h
  subst hr
  exact ⟨rfl, rfl⟩

/-! ## C1 -/

/-- C1 (amended): starting from a fresh world, if the producer's first
invocation throws and the remote tier offers no hit, `fetch` catches the
error, records an error metric, and invokes the producer a second time;
what the caller receives is the outcome of that second invocation (its
value, or its error), and the producer is invoked exactly twice. -/
theorem c1_producer_error_retried_once (cfg : Config)
    (env : Nat → NetResult (Option JVal)) (now n0 : Int) (b : RedisState)
    (key : String) (p : Nat → Except String JVal)
    (optionsOrTtl : Option FetchArg) (e : String)
    (hp : p 0 = .error e)
    (henv : ∀ i, outcomeTruthy (env i) = false) :
    (fetch cfg env now key p optionsOrTtl (World.init n0 b)).1 = p 1 ∧
    (fetch cfg env now key p optionsOrTtl (World.init n0 b)).2.producerCalls
      = 2 := by
  have hmem0 : ∀ w : World, w.memory = MemoryCache.empty n0 →
      MemoryCache.get now ("ez:" ++ key) w.memory = (none, w.memory) := by
    intro w hw
    rw [hw]
    exact memoryGet_empty now n0 _
  have hbody : ∃ w', fetchTryBody cfg env now key p
      (resolveOptions cfg optionsOrTtl) (World.init n0 b) = (.error e, w') ∧
      w'.producerCalls = 1 := by
    unfold fetchTryBody
    by_cases hdis : cfg.cacheMode = .DISABLED
    · rw [if_pos hdis]
      refine ⟨{ World.init n0 b with producerCalls := 1 }, ?_, rfl⟩
      unfold callProducer
      dsimp only [World.init]
      rw [hp]
    · rw [if_neg hdis]
      by_cases hgate : (cfg.ENABLE_TRAFFIC_DETECTION &&
          !(resolveOptions cfg optionsOrTtl).forceCaching) = true
      · simp only [hgate, if_true]
        rcases hht : TrafficTracker.isHighTraffic cfg now key
            (some (resolveOptions cfg optionsOrTtl).minTrafficCount)
            (World.init n0 b).traffic with ⟨ht, tr'⟩
        cases ht
        · simp only [Bool.not_false, if_true]
          refine ⟨{ World.init n0 b with traffic := tr', producerCalls := 1 },
            ?_, rfl⟩
          unfold callProducer
          dsimp only [World.init]
          rw [hp]
        · simp only [Bool.not_true, Bool.false_eq_true, if_false]
          obtain ⟨w2, hm2, ht2, hp2, hmet2, hlay⟩ := layers_cold_miss cfg env
            now ("ez:" ++ key) p (resolveOptions cfg optionsOrTtl).ttl
            (if cfg.ENABLE_REDIS then (resolveOptions cfg optionsOrTtl).ttl * 10
              else (resolveOptions cfg optionsOrTtl).ttl)
            { World.init n0 b with traffic := tr' } (hmem0 _ rfl) henv
          rw [hlay]
          have hp2' : w2.producerCalls = 0 := hp2
          rw [hp2', hp]
          exact ⟨_, rfl, by simp [hp2']⟩
      · simp only [hgate, if_false]
        obtain ⟨w2, hm2, ht2, hp2, hmet2, hlay⟩ := layers_cold_miss cfg env
          now ("ez:" ++ key) p (resolveOptions cfg optionsOrTtl).ttl
          (if cfg.ENABLE_REDIS then (resolveOptions cfg optionsOrTtl).ttl * 10
            else (resolveOptions cfg optionsOrTtl).ttl)
          (World.init n0 b) (hmem0 _ rfl) henv
        rw [hlay]
        have hp2' : w2.producerCalls = 0 := hp2
        rw [hp2', hp]
        exact ⟨_, rfl, by simp [hp2']⟩
  obtain ⟨w', hb, hc1⟩ := hbody
  rw [fetch_of_body_error cfg env now key p optionsOrTtl _ w' e hb]
  have hre := (recordErrorW_spec cfg w').1
  constructor
  · show p (recordErrorW cfg w').producerCalls = p 1
    rw [hre, hc1]
  · show (recordErrorW cfg w').producerCalls + 1 = 2
    rw [hre, hc1]

/-- Witness for C1: a producer that throws once then returns 42, against
the memory-only config: `fetch` returns the second invocation's value. -/
theorem c1_producer_error_retried_once_witness :
    c1Producer 0 = .error "boom" ∧
    (fetch cfgMemOnly envAllFail 0 "k" c1Producer none
      (World.init 0 sClosed)).1 = c1Producer 1 ∧
    (fetch cfgMemOnly envAllFail 0 "k" c1Producer none
      (World.init 0 sClosed)).2.producerCalls = 2 :=
  ⟨by decide,
   (c1_producer_error_retried_once cfgMemOnly envAllFail 0 0 sClosed "k"
     c1Producer none "boom" (by decide) (fun _ => rfl)).1,
   (c1_producer_error_retried_once cfgMemOnly envAllFail 0 0 sClosed "k"
     c1Producer none "boom" (by decide) (fun _ => rfl)).2⟩

/-- C1 counterexample: the claim says the producer is invoked at most once
and its error is raised unchanged; in fact, with a producer that throws on
the first invocation and returns 42 on the second, `fetch` returns
`ok 42` (no error at all) and the producer has been invoked twice. -/
theorem c1_counterexample :
    c1Producer 0 = .error "boom" ∧
    (fetch cfgMemOnly envAllFail 0 "k" c1Producer none
      (World.init 0 sClosed)).1 = .ok (.jnum 42) ∧
    (fetch cfgMemOnly envAllFail 0 "k" c1Producer none
      (World.init 0 sClosed)).2.producerCalls = 2 := by
  decide

/-! ## C2 -/

/-- C2 (amended): starting from a fresh world, for a producer whose value
is truthy and fits under the size cap, and a remote tier without a truthy
reply, two successive `fetch(k, p, {forceCaching: true})` calls (the
second before the stored entry's expiry) invoke the producer exactly once
and both return the produced value. -/
theorem c2_idempotent_hit_truthy (cfg : Config)
    (env : Nat → NetResult (Option JVal)) (n0 n1 n2 : Int) (b : RedisState)
    (key : String) (p : Nat → Except String JVal) (v : JVal)
    (optionsOrTtl : Option FetchArg)
    (hmem : cfg.ENABLE_MEMORY = true)
    (hforce : (resolveOptions cfg optionsOrTtl).forceCaching = true)
    (hp : p 0 = .ok v)
    (htr : v.truthy = true)
    (hsz : MemoryCache.estimateSize v ≤ cfg.MAX_VALUE_SIZE)
    (henv : ∀ i, outcomeTruthy (env i) = false)
    (hexp : n2 ≤ n1 + (min (resolveOptions cfg optionsOrTtl).ttl
      cfg.MEMORY_TTL_MAX : Nat) * 1000) :
    (fetch cfg env n1 key p optionsOrTtl (World.init n0 b)).1 = .ok v ∧
    (fetch cfg env n2 key p optionsOrTtl
      (fetch cfg env n1 key p optionsOrTtl (World.init n0 b)).2).1 = .ok v ∧
    (fetch cfg env n2 key p optionsOrTtl
      (fetch cfg env n1 key p optionsOrTtl
        (World.init n0 b)).2).2.producerCalls = 1 := by
  have hdis : ¬ cfg.cacheMode = .DISABLED := by
    cases hred : cfg.ENABLE_REDIS <;> simp [Config.cacheMode, hmem, hred]
  obtain ⟨w2, hw2m, hw2t, hw2p, hw2met, hlay⟩ := layers_cold_miss cfg env n1
    ("ez:" ++ key) p (resolveOptions cfg optionsOrTtl).ttl
    (if cfg.ENABLE_REDIS then (resolveOptions cfg optionsOrTtl).ttl * 10
      else (resolveOptions cfg optionsOrTtl).ttl)
    (World.init n0 b) (memoryGet_empty n1 n0 ("ez:" ++ key)) henv
  have h0 : w2.producerCalls = 0 := hw2p
  rw [h0, hp] at hlay
  have hlay' : fetchFromCacheLayers cfg env n1 ("ez:" ++ key) p
      (resolveOptions cfg optionsOrTtl).ttl
      (if cfg.ENABLE_REDIS then (resolveOptions cfg optionsOrTtl).ttl * 10
        else (resolveOptions cfg optionsOrTtl).ttl) (World.init n0 b) =
      (.ok v, recordMissW cfg (storeInCacheLayers cfg env n1 ("ez:" ++ key) v
        (resolveOptions cfg optionsOrTtl).ttl
        (if cfg.ENABLE_REDIS then (resolveOptions cfg optionsOrTtl).ttl * 10
          else (resolveOptions cfg optionsOrTtl).ttl)
        { w2 with producerCalls := 0 + 1 })) := hlay
  have hb1 : fetchTryBody cfg env n1 key p (resolveOptions cfg optionsOrTtl)
      (World.init n0 b) =
      (.ok v, recordMissW cfg (storeInCacheLayers cfg env n1 ("ez:" ++ key) v
        (resolveOptions cfg optionsOrTtl).ttl
        (if cfg.ENABLE_REDIS then (resolveOptions cfg optionsOrTtl).ttl * 10
          else (resolveOptions cfg optionsOrTtl).ttl)
        { w2 with producerCalls := 0 + 1 })) :=
    (fetchTryBody_forced cfg env n1 key p (resolveOptions cfg optionsOrTtl)
      (World.init n0 b) hdis hforce).trans hlay'
  obtain ⟨hf1, hf1w⟩ := fetch_body_ok_cases cfg env n1 key p optionsOrTtl
    (World.init n0 b) v (by rw [hb1])
  have hW1 : (fetch cfg env n1 key p optionsOrTtl (World.init n0 b)).2 =
      recordMissW cfg (storeInCacheLayers cfg env n1 ("ez:" ++ key) v
        (resolveOptions cfg optionsOrTtl).ttl
        (if cfg.ENABLE_REDIS then (resolveOptions cfg optionsOrTtl).ttl * 10
          else (resolveOptions cfg optionsOrTtl).ttl)
        { w2 with producerCalls := 0 + 1 }) := by
    rw [hf1w, hb1]
  have hmm1 : (fetch cfg env n1 key p optionsOrTtl
      (World.init n0 b)).2.memory.cache =
      [("ez:" ++ key,
        ⟨v, n1 + (min (min (resolveOptions cfg optionsOrTtl).ttl
            cfg.MEMORY_TTL_MAX) cfg.MEMORY_TTL_MAX : Nat) * 1000,
          n1, 1, MemoryCache.estimateSize v, n1⟩)] := by
    rw [hW1, (recordMissW_spec cfg _).2.1,
      (storeInCacheLayers_spec cfg env n1 ("ez:" ++ key) v _ _ _).2.2]
    simp only [hmem, if_true]
    have hm0 : ({ w2 with producerCalls := 0 + 1 } : World).memory =
        MemoryCache.empty n0 := by
      show w2.memory = MemoryCache.empty n0
      rw [hw2m]
      rfl
    rw [hm0, set_empty_cache cfg n1 n0 ("ez:" ++ key) v _ hsz]
  have hcall1 : (fetch cfg env n1 key p optionsOrTtl
      (World.init n0 b)).2.producerCalls = 1 := by
    rw [hW1, (recordMissW_spec cfg _).1,
      (storeInCacheLayers_spec cfg env n1 ("ez:" ++ key) v _ _ _).1]
  have hitem_exp : n2 ≤ n1 + (min (min (resolveOptions cfg optionsOrTtl).ttl
      cfg.MEMORY_TTL_MAX) cfg.MEMORY_TTL_MAX : Nat) * 1000 := by
    have hmm : min (min (resolveOptions cfg optionsOrTtl).ttl
        cfg.MEMORY_TTL_MAX) cfg.MEMORY_TTL_MAX =
        min (resolveOptions cfg optionsOrTtl).ttl cfg.MEMORY_TTL_MAX := by
      rw [min_assoc, min_self]
    rw [hmm]
    exact hexp
  obtain ⟨hl2r, hl2c⟩ := layers_memory_hit cfg env n2 ("ez:" ++ key) p
    (resolveOptions cfg optionsOrTtl).ttl
    (if cfg.ENABLE_REDIS then (resolveOptions cfg optionsOrTtl).ttl * 10
      else (resolveOptions cfg optionsOrTtl).ttl)
    (fetch cfg env n1 key p optionsOrTtl (World.init n0 b)).2
    ⟨v, n1 + (min (min (resolveOptions cfg optionsOrTtl).ttl
        cfg.MEMORY_TTL_MAX) cfg.MEMORY_TTL_MAX : Nat) * 1000,
      n1, 1, MemoryCache.estimateSize v, n1⟩
    hmem hmm1 hitem_exp htr
  have hbody2eq : fetchTryBody cfg env n2 key p
      (resolveOptions cfg optionsOrTtl)
      (fetch cfg env n1 key p optionsOrTtl (World.init n0 b)).2 =
      fetchFromCacheLayers cfg env n2 ("ez:" ++ key) p
        (resolveOptions cfg optionsOrTtl).ttl
        (if cfg.ENABLE_REDIS then (resolveOptions cfg optionsOrTtl).ttl * 10
          else (resolveOptions cfg optionsOrTtl).ttl)
        (fetch cfg env n1 key p optionsOrTtl (World.init n0 b)).2 :=
    fetchTryBody_forced cfg env n2 key p (resolveOptions cfg optionsOrTtl)
      (fetch cfg env n1 key p optionsOrTtl (World.init n0 b)).2 hdis hforce
  have hb2ok : (fetchTryBody cfg env n2 key p
      (resolveOptions cfg optionsOrTtl)
      (fetch cfg env n1 key p optionsOrTtl (World.init n0 b)).2).1 =
      .ok v := by
    rw [hbody2eq]
    exact hl2r
  obtain ⟨hf2, hf2w⟩ := fetch_body_ok_cases cfg env n2 key p optionsOrTtl
    (fetch cfg env n1 key p optionsOrTtl (World.init n0 b)).2 v hb2ok
  refine ⟨hf1, hf2, ?_⟩
  rw [hf2w, hbody2eq, hl2c, hcall1]

/-- Witness for C2: the always-7 producer against the memory-only config
with `{forceCaching: true}`: one invocation across two fetches. -/
theorem c2_idempotent_hit_truthy_witness :
    okProducer 0 = .ok (.jnum 7) ∧
    (fetch cfgMemOnly envAllFail 0 "k" okProducer forceCachingArg
      (World.init 0 sClosed)).1 = .ok (.jnum 7) ∧
    (fetch cfgMemOnly envAllFail 1000 "k" okProducer forceCachingArg
      (fetch cfgMemOnly envAllFail 0 "k" okProducer forceCachingArg
        (World.init 0 sClosed)).2).1 = .ok (.jnum 7) ∧
    (fetch cfgMemOnly envAllFail 1000 "k" okProducer forceCachingArg
      (fetch cfgMemOnly envAllFail 0 "k" okProducer forceCachingArg
        (World.init 0 sClosed)).2).2.producerCalls = 1 :=
  ⟨by decide,
    (c2_idempotent_hit_truthy cfgMemOnly envAllFail 0 0 1000 sClosed "k"
      okProducer (.jnum 7) forceCachingArg (by decide) (by decide) (by decide)
      (by decide) (by decide) (fun _ => rfl) (by decide)).1,
    (c2_idempotent_hit_truthy cfgMemOnly envAllFail 0 0 1000 sClosed "k"
      okProducer (.jnum 7) forceCachingArg (by decide) (by decide) (by decide)
      (by decide) (by decide) (fun _ => rfl) (by decide)).2.1,
    (c2_idempotent_hit_truthy cfgMemOnly envAllFail 0 0 1000 sClosed "k"
      okProducer (.jnum 7) forceCachingArg (by decide) (by decide) (by decide)
      (by decide) (by decide) (fun _ => rfl) (by decide)).2.2⟩

/-- C2 counterexample: with a producer returning the falsy value 0, the
second `fetch(k, p, {forceCaching: true})` re-invokes the producer (the
`if (memData)` truthiness check treats the cached 0 as a miss), so the
producer runs twice, contradicting the claim's "exactly once" for every
producer. -/
theorem c2_counterexample :
    falsyProducer 0 = .ok (.jnum 0) ∧
    (fetch cfgMemOnly envAllFail 0 "k" falsyProducer forceCachingArg
      (fetch cfgMemOnly envAllFail 0 "k" falsyProducer forceCachingArg
        (World.init 0 sClosed)).2).2.producerCalls = 2 := by
  decide

/-! ## C3 -/

/-- C3: with traffic detection enabled, caching not globally disabled,
metrics enabled and `forceCaching` false, a call whose tracked request
count stays strictly below the effective `minTrafficCount` threshold
invokes the producer exactly once, records a miss metric, leaves the
memory tier, the breaker state and the network-call count untouched, and
only updates the traffic window. -/
theorem c3_traffic_gating (cfg : Config)
    (env : Nat → NetResult (Option JVal)) (now : Int) (key : String)
    (p : Nat → Except String JVal) (v : JVal)
    (optionsOrTtl : Option FetchArg) (w : World)
    (htd : cfg.ENABLE_TRAFFIC_DETECTION = true)
    (hmode : ¬ cfg.cacheMode = .DISABLED)
    (hforce : (resolveOptions cfg optionsOrTtl).forceCaching = false)
    (hmet : cfg.ENABLE_METRICS = true)
    (hp : p w.producerCalls = .ok v)
    (hlow : (TrafficTracker.track cfg now key w.traffic).1 <
      TrafficTracker.effectiveThreshold cfg
        (some (resolveOptions cfg optionsOrTtl).minTrafficCount)) :
    (fetch cfg env now key p optionsOrTtl w).1 = .ok v ∧
    (fetch cfg env now key p optionsOrTtl w).2.memory = w.memory ∧
    (fetch cfg env now key p optionsOrTtl w).2.redisB = w.redisB ∧
    (fetch cfg env now key p optionsOrTtl w).2.netCalls = w.netCalls ∧
    (fetch cfg env now key p optionsOrTtl w).2.metrics.misses =
      w.metrics.misses + 1 ∧
    (fetch cfg env now key p optionsOrTtl w).2.producerCalls =
      w.producerCalls + 1 ∧
    (fetch cfg env now key p optionsOrTtl w).2.traffic =
      (TrafficTracker.track cfg now key w.traffic).2 := by
  rcases htrk : TrafficTracker.track cfg now key w.traffic with ⟨count, tt2⟩
  have hlow' : count < TrafficTracker.effectiveThreshold cfg
      (some (resolveOptions cfg optionsOrTtl).minTrafficCount) := by
    rw [htrk] at hlow
    exact hlow
  have hht : TrafficTracker.isHighTraffic cfg now key
      (some (resolveOptions cfg optionsOrTtl).minTrafficCount) w.traffic =
      (false, tt2) := by
    unfold TrafficTracker.isHighTraffic
    rw [htrk]
    dsimp only
    rw [decide_eq_false (not_le.mpr hlow')]
  have hbody : fetchTryBody cfg env now key p
      (resolveOptions cfg optionsOrTtl) w =
      (.ok v, recordMissW cfg
        { w with traffic := tt2, producerCalls := w.producerCalls + 1 }) := by
    unfold fetchTryBody
    rw [if_neg hmode]
    simp only [htd, hforce, Bool.not_false, Bool.and_true, if_true]
    rw [hht]
    dsimp only
    simp only [Bool.not_false, if_true]
    unfold callProducer
    dsimp only
    rw [hp]
  obtain ⟨hf, hfw⟩ := fetch_body_ok_cases cfg env now key p optionsOrTtl w v
    (by rw [hbody])
  refine ⟨hf, ?_, ?_, ?_, ?_, ?_, ?_⟩
  · rw [hfw, hbody]
    exact (recordMissW_spec cfg _).2.1
  · rw [hfw, hbody]
    exact (recordMissW_spec cfg _).2.2.2.1
  · rw [hfw, hbody]
    exact (recordMissW_spec cfg _).2.2.2.2
  · rw [hfw, hbody, recordMissW_misses cfg _ hmet]
  · rw [hfw, hbody]
    exact (recordMissW_spec cfg _).1
  · rw [hfw, hbody]
    exact (recordMissW_spec cfg _).2.2.1

/-- Witness for C3: a fresh key against the memory-only config (threshold
100): the first request counts 1 < 100, so the producer is called once, a
miss is recorded, and no tier is written. -/
theorem c3_traffic_gating_witness :
    (TrafficTracker.track cfgMemOnly 0 "k"
      (World.init 0 sClosed).traffic).1 <
      TrafficTracker.effectiveThreshold cfgMemOnly
        (some (resolveOptions cfgMemOnly none).minTrafficCount) ∧
    (fetch cfgMemOnly envAllFail 0 "k" okProducer none
      (World.init 0 sClosed)).1 = .ok (.jnum 7) ∧
    (fetch cfgMemOnly envAllFail 0 "k" okProducer none
      (World.init 0 sClosed)).2.memory = (World.init 0 sClosed).memory ∧
    (fetch cfgMemOnly envAllFail 0 "k" okProducer none
      (World.init 0 sClosed)).2.metrics.misses = 1 ∧
    (fetch cfgMemOnly envAllFail 0 "k" okProducer none
      (World.init 0 sClosed)).2.producerCalls = 1 :=
  ⟨by decide,
    (c3_traffic_gating cfgMemOnly envAllFail 0 "k" okProducer (.jnum 7) none
      (World.init 0 sClosed) (by decide) (by decide) (by decide) (by decide)
      (by decide) (by decide)).1,
    (c3_traffic_gating cfgMemOnly envAllFail 0 "k" okProducer (.jnum 7) none
      (World.init 0 sClosed) (by decide) (by decide) (by decide) (by decide)
      (by decide) (by decide)).2.1,
    (c3_traffic_gating cfgMemOnly envAllFail 0 "k" okProducer (.jnum 7) none
      (World.init 0 sClosed) (by decide) (by decide) (by decide) (by decide)
      (by decide) (by decide)).2.2.2.2.1,
    (c3_traffic_gating cfgMemOnly envAllFail 0 "k" okProducer (.jnum 7) none
      (World.init 0 sClosed) (by decide) (by decide) (by decide) (by decide)
      (by decide) (by decide)).2.2.2.2.2.1⟩

end Shohan
